import Mathlib

/-!
Verification of the `UrlShortener` class of `src/url-shortener.js`.

JavaScript strings are modelled as lists of characters (`Str`);
`String.prototype.toLowerCase` is modelled as per-character ASCII case
folding (`strLower`), `String.prototype.split` with a one-character
separator as `jsSplit`.  The `Map` held in `this.collection` is modelled
as an association list in insertion order (`Store`): `Map.get` is
`mapGet`, `Map.set` is `mapSet` (updating in place on an existing key,
appending otherwise), and a `forEach` loop that rewrites entries while
iterating is modelled by the structure-preserving scans `addScan` /
`removeScan` (`Map.prototype.set` on an existing key does not add or
reorder entries, so the iteration visits each entry exactly once).

Each method returns a result object together with the state of the
shortener after the call.  `Math.random().toString(36).slice(5, 12)` in
`_generateHash` is nondeterministic, so `add` takes the generated token
as an explicit argument; the generator only produces characters in
`[0-9a-z]`, which is reflected by hypotheses such as
`hash.contains '/' = false` where a property depends on it.
-/

namespace UrlNode

/-- A JavaScript string, as a list of characters. -/
abbrev Str : Type := List Char

/-- `s.toList` for a Lean string literal, as a `Str`. -/
def lit (s : String) : Str := s.toList

/-- `String.prototype.toLowerCase`, restricted to ASCII case folding. -/
def strLower (s : Str) : Str := s.map Char.toLower

/-- `String.prototype.split` with a one-character separator `c`:
`"a/b".split('/') = ["a","b"]`, `"".split('/') = [""]`. -/
def jsSplit (c : Char) : Str → List Str
  | [] => [[]]
  | x :: xs =>
    if x = c then [] :: jsSplit c xs
    else
      match jsSplit c xs with
      | [] => [[x]]
      | y :: ys => (x :: y) :: ys

/-- One association record of the store: the case-folded long URL, the
`count` field (the hit count) and the `active` flag. -/
structure Record where
  longUrl : Str
  count : Nat
  active : Bool
deriving DecidableEq, Repr

/-- The `this.collection` map, as an association list in insertion order. -/
abbrev Store : Type := List (Str × Record)

/-- The state of a `UrlShortener` instance: `this.baseUrl` (the
configured domain) and `this.collection`. -/
structure Shortener where
  baseUrl : Str
  collection : Store
deriving DecidableEq, Repr

/-- `new UrlShortener(domain)`: `baseUrl = domain`, empty collection. -/
def initShortener (domain : Str) : Shortener :=
  { baseUrl := domain, collection := [] }

/-- `Map.prototype.get`. -/
def mapGet : Store → Str → Option Record
  | [], _ => none
  | (k, v) :: rest, q => if k = q then some v else mapGet rest q

/-- `Map.prototype.has`. -/
def mapHas (st : Store) (q : Str) : Bool := (mapGet st q).isSome

/-- `Map.prototype.set`: update in place on an existing key, append
otherwise. -/
def mapSet : Store → Str → Record → Store
  | [], q, r => [(q, r)]
  | (k, v) :: rest, q, r =>
    if k = q then (q, r) :: rest else (k, v) :: mapSet rest q r

/-- The `error` object of a failure result. -/
structure ErrObj where
  code : Str
  message : Str
deriving DecidableEq, Repr

/-- A `value` payload: a string for `add`/`query`, a number for `count`. -/
inductive JsValue where
  | str : Str → JsValue
  | num : Nat → JsValue
deriving DecidableEq, Repr

/-- A result object, with its optional `value` and `error` fields. -/
structure JsResult where
  value : Option JsValue := none
  error : Option ErrObj := none
deriving DecidableEq, Repr

/-- `_urlSyntaxError(url)`: the lexical URL check.  JS evaluates the
disjunction left to right, so `urlParts[2]` is only read when the
`http(s)://` prefix test has passed, in which case the split has at
least three parts; the `getD _ []` default is therefore never the value
read by the source on its reachable evaluations. -/
def urlSyntaxError (url : Str) : Option JsResult :=
  let urlParts := jsSplit '/' url
  let part2 := (urlParts.get? 2).getD []
  if (!(List.isPrefixOf (lit "http://") (strLower url) ||
        List.isPrefixOf (lit "https://") (strLower url)) ||
      part2.length == 0 || !(part2.contains '.')) then
    some { error := some { code := lit "URL_SYNTAX",
                           message := lit "URL_SYNTAX: bad url " ++ url } }
  else
    none

/-- `_isSameOrigin(url)`: the third `/`-delimited segment of the
lowercased URL compared with `baseUrl` (`undefined === baseUrl` is
`false`, hence the `none` branch). -/
def isSameOrigin (base : Str) (url : Str) : Bool :=
  match (jsSplit '/' (strLower url)).get? 2 with
  | some p => p == base
  | none => false

/-- `_notFound()`. -/
def notFoundRes : JsResult :=
  { error := some { code := lit "NOT_FOUND",
                    message := lit "url was never registered for this service" } }

/-- The `NOT_FOUND` result built inline by `query`. -/
def queryNotFound (shortUrl : Str) : JsResult :=
  { error := some { code := lit "NOT_FOUND",
                    message := lit "NOT_FOUND: " ++ shortUrl ++ lit " not found" } }

/-- The `forEach` loop of `add`: reactivate every record whose `longUrl`
equals the case-folded input, and remember the key of the last match
(each assignment to `exists` overwrites the previous one). -/
def addScan : Store → Str → Store × Option Str
  | [], _ => ([], none)
  | (k, v) :: rest, lower =>
    let hd := if v.longUrl = lower then (k, { v with active := true }) else (k, v)
    let tl := addScan rest lower
    (hd :: tl.1,
      match tl.2 with
      | some k2 => some k2
      | none => if v.longUrl = lower then some k else none)

/-- `add(longUrl)`.  `hash` is the token `_generateHash()` returned on
this call (it is only consulted on the fresh-insert path).  The guard
`if (exists)` is a JS truthiness test on a string-or-`undefined`
variable: it fails both when no record matched (`exists` is
`undefined`) and when the matched key is the empty string, in which
case the code falls through and inserts a fresh record even though a
record with the same case-folded long URL exists. -/
def add (sh : Shortener) (hash : Str) (longUrl : Str) : JsResult × Shortener :=
  match urlSyntaxError longUrl with
  | some e => (e, sh)
  | none =>
    if isSameOrigin sh.baseUrl longUrl then
      ({ error := some { code := lit "DOMAIN",
                         message := lit "longUrl domain is equal to SHORTENER_DOMAIN" } },
       sh)
    else
      let lower := strLower longUrl
      let scanned := addScan sh.collection lower
      let urlParts := jsSplit '/' lower
      let scheme := urlParts.getD 0 []
      match scanned.2 with
      | some k =>
        if k.isEmpty then
          ({ value := some (JsValue.str (scheme ++ lit "//" ++ sh.baseUrl ++ lit "/" ++ hash)) },
           { sh with collection :=
               mapSet scanned.1 hash { longUrl := lower, count := 0, active := true } })
        else
          ({ value := some (JsValue.str (scheme ++ lit "//" ++ sh.baseUrl ++ lit "/" ++ k)) },
           { sh with collection := scanned.1 })
      | none =>
        ({ value := some (JsValue.str (scheme ++ lit "//" ++ sh.baseUrl ++ lit "/" ++ hash)) },
         { sh with collection :=
             mapSet scanned.1 hash { longUrl := lower, count := 0, active := true } })

/-- `query(shortUrl)`.  The alias is `shortUrl.split('/')[3]` (not
lowercased); `Map.get(undefined)` is `undefined`, hence the `none`
branch.  The success guard is `exist && exist.longUrl && exist.active`:
a record with an empty `longUrl` string would be falsy. -/
def query (sh : Shortener) (shortUrl : Str) : JsResult × Shortener :=
  match urlSyntaxError shortUrl with
  | some e => (e, sh)
  | none =>
    if !(isSameOrigin sh.baseUrl shortUrl) then
      ({ error := some { code := lit "DOMAIN",
                         message := lit "shortUrl domain is not equal to SHORTENER_DOMAIN" } },
       sh)
    else
      match (jsSplit '/' shortUrl).get? 3 with
      | none => (queryNotFound shortUrl, sh)
      | some k =>
        match mapGet sh.collection k with
        | none => (queryNotFound shortUrl, sh)
        | some r =>
          if !r.longUrl.isEmpty && r.active then
            ({ value := some (JsValue.str r.longUrl) },
             { sh with collection := mapSet sh.collection k { r with count := r.count + 1 } })
          else
            (queryNotFound shortUrl, sh)

/-- The `forEach` loop of `count`: `exist` ends as the `count` field of
the last record whose `longUrl` equals the case-folded input
(`undefined >= 0` is `false`, so `exist` being unset means `NOT_FOUND`). -/
def lastMatch : Store → Str → Option Record
  | [], _ => none
  | (_, v) :: rest, lower =>
    match lastMatch rest lower with
    | some r => some r
    | none => if v.longUrl = lower then some v else none

/-- `count(url)`.  If the URL is same-origin and its alias is a key of
the collection the hit count is returned at once; otherwise the code
falls through to the linear scan by case-folded long URL. -/
def count (sh : Shortener) (url : Str) : JsResult × Shortener :=
  match urlSyntaxError url with
  | some e => (e, sh)
  | none =>
    let viaAlias : Option Nat :=
      if isSameOrigin sh.baseUrl url then
        match (jsSplit '/' url).get? 3 with
        | some k => (mapGet sh.collection k).map Record.count
        | none => none
      else none
    match viaAlias with
    | some n => ({ value := some (JsValue.num n) }, sh)
    | none =>
      match lastMatch sh.collection (strLower url) with
      | some r => ({ value := some (JsValue.num r.count) }, sh)
      | none => (notFoundRes, sh)

/-- The `forEach` loop of `remove`: deactivate every record whose
`longUrl` equals the case-folded input; the flag records whether any
matched. -/
def removeScan : Store → Str → Store × Bool
  | [], _ => ([], false)
  | (k, v) :: rest, lower =>
    let hd := if v.longUrl = lower then (k, { v with active := false }) else (k, v)
    let tl := removeScan rest lower
    (hd :: tl.1, (v.longUrl == lower) || tl.2)

/-- `remove(url)`.  Same-origin URLs whose alias is a key are
deactivated by key; otherwise the code falls through to the linear scan
by case-folded long URL. -/
def remove (sh : Shortener) (url : Str) : JsResult × Shortener :=
  match urlSyntaxError url with
  | some e => (e, sh)
  | none =>
    let viaAlias : Option (Str × Record) :=
      if isSameOrigin sh.baseUrl url then
        match (jsSplit '/' url).get? 3 with
        | some k => (mapGet sh.collection k).map (fun r => (k, r))
        | none => none
      else none
    match viaAlias with
    | some kr =>
      ({}, { sh with collection := mapSet sh.collection kr.1 { kr.2 with active := false } })
    | none =>
      let scanned := removeScan sh.collection (strLower url)
      if scanned.2 then ({}, { sh with collection := scanned.1 })
      else (notFoundRes, { sh with collection := scanned.1 })

/-! ### Derived definitions used by the verification -/

/-- The per-record effect of `add`'s reactivation loop. -/
def actTrue (l : Str) (r : Record) : Record :=
  if r.longUrl = l then { r with active := true } else r

/-- The per-record effect of `remove`'s deactivation loop. -/
def actFalse (l : Str) (r : Record) : Record :=
  if r.longUrl = l then { r with active := false } else r

/-- The Boolean condition tested by `_urlSyntaxError`. -/
def badSyntax (url : Str) : Bool :=
  !(List.isPrefixOf (lit "http://") (strLower url) ||
    List.isPrefixOf (lit "https://") (strLower url)) ||
  (((jsSplit '/' url).get? 2).getD []).length == 0 ||
  !((((jsSplit '/' url).get? 2).getD []).contains '.')

/-- The failure object `_urlSyntaxError` builds. -/
def syntaxErrorRes (url : Str) : JsResult :=
  { error := some { code := lit "URL_SYNTAX",
                    message := lit "URL_SYNTAX: bad url " ++ url } }

/-- Facts assumed of the configured domain: as in the spec's scenarios it is
a non-empty lowercase host containing a dot and no slash. -/
def GoodDomain (d : Str) : Prop :=
  d ≠ [] ∧ d.contains '.' = true ∧ d.contains '/' = false ∧ strLower d = d

/-- Facts true of every token `_generateHash` can produce (characters in
`[0-9a-z]`): no slash, case-fold invariant. -/
def GoodToken (t : Str) : Prop := t.contains '/' = false ∧ strLower t = t

/-- The invariant of every reachable shortener state: keys are distinct
tokens without slashes, the stored long URLs are distinct (at most one
record per case-folded long URL), non-empty, and never same-origin. -/
def WF (sh : Shortener) : Prop :=
  (sh.collection.map Prod.fst).Nodup ∧
  (sh.collection.map fun p => p.2.longUrl).Nodup ∧
  ∀ p ∈ sh.collection,
    GoodToken p.1 ∧ p.2.longUrl ≠ [] ∧
    (jsSplit '/' p.2.longUrl).get? 2 ≠ some sh.baseUrl

/-- The `DOMAIN` failure object of `add`. -/
def addDomainErr : JsResult :=
  { error := some { code := lit "DOMAIN",
                    message := lit "longUrl domain is equal to SHORTENER_DOMAIN" } }

/-- The `DOMAIN` failure object of `query`. -/
def queryDomainErr : JsResult :=
  { error := some { code := lit "DOMAIN",
                    message := lit "shortUrl domain is not equal to SHORTENER_DOMAIN" } }

/-- The states reachable from a fresh shortener by the four public
operations, each `add` obtaining its token from `_generateHash`. -/
inductive Reachable : Shortener → Prop where
  | init (d : Str) : Reachable (initShortener d)
  | addStep (sh : Shortener) (hash u : Str) (hh : GoodToken hash) :
      Reachable sh → Reachable (add sh hash u).2
  | queryStep (sh : Shortener) (u : Str) :
      Reachable sh → Reachable (query sh u).2
  | countStep (sh : Shortener) (u : Str) :
      Reachable sh → Reachable (count sh u).2
  | removeStep (sh : Shortener) (u : Str) :
      Reachable sh → Reachable (remove sh u).2

/-- The machine-readable code of a result's error, when it has one. -/
def errCode (r : JsResult) : Option Str := r.error.map ErrObj.code

/-- `m` successive `query` calls with the same argument. -/
def iterQuery : Nat → Str → Shortener → Shortener
  | 0, _, sh => sh
  | Nat.succ m, s, sh => iterQuery m s (query sh s).2

/-! ### Facts about the embedded string primitives -/

theorem contains_cons_false {x c : Char} {xs : Str}
    (h : ((x :: xs).contains c) = false) : x ≠ c ∧ xs.contains c = false := by
  rw [List.contains_cons] at h
  rcases Bool.or_eq_false_iff.mp h with ⟨h1, h2⟩
  refine ⟨fun he => ?_, h2⟩
  subst he
  simp at h1

theorem jsSplit_ne_nil (c : Char) (s : Str) : jsSplit c s ≠ [] := by
  induction s with
  | nil => simp [jsSplit]
  | cons x xs ih =>
    simp only [jsSplit]
    split
    · simp
    · cases h : jsSplit c xs with
      | nil => simp
      | cons y ys => simp

theorem jsSplit_cons_self (c : Char) (s : Str) :
    jsSplit c (c :: s) = [] :: jsSplit c s := by
  simp [jsSplit]

theorem jsSplit_cons_ne (c x : Char) (s : Str) (hx : x ≠ c) :
    jsSplit c (x :: s) =
      ((jsSplit c s).headD []).cons x :: (jsSplit c s).tail := by
  simp only [jsSplit, if_neg hx]
  cases h : jsSplit c s with
  | nil => exact absurd h (jsSplit_ne_nil c s)
  | cons y ys => simp

theorem jsSplit_append_cons (c : Char) (a b : Str) (ha : a.contains c = false) :
    jsSplit c (a ++ c :: b) = a :: jsSplit c b := by
  induction a with
  | nil =>
    simp [jsSplit_cons_self]
  | cons x xs ih =>
    obtain ⟨hx, hxs⟩ := contains_cons_false ha
    rw [List.cons_append, jsSplit_cons_ne c x _ hx, ih hxs]
    simp

theorem jsSplit_no_sep (c : Char) (a : Str) (ha : a.contains c = false) :
    jsSplit c a = [a] := by
  induction a with
  | nil => rfl
  | cons x xs ih =>
    obtain ⟨hx, hxs⟩ := contains_cons_false ha
    rw [jsSplit_cons_ne c x _ hx, ih hxs]
    rfl

/-- The split of a well-formed short URL `<scheme>//<domain>/<alias>`. -/
theorem jsSplit_shortUrl (sch b k : Str) (hs : sch.contains '/' = false)
    (hb : b.contains '/' = false) (hk : k.contains '/' = false) :
    jsSplit '/' (sch ++ '/' :: '/' :: (b ++ '/' :: k)) = [sch, [], b, k] := by
  rw [jsSplit_append_cons _ _ _ hs, jsSplit_cons_self,
    jsSplit_append_cons _ _ _ hb, jsSplit_no_sep _ _ hk]

theorem strLower_nil : strLower [] = [] := rfl

theorem strLower_cons (c : Char) (s : Str) :
    strLower (c :: s) = c.toLower :: strLower s := rfl

theorem strLower_append (a b : Str) :
    strLower (a ++ b) = strLower a ++ strLower b :=
  List.map_append _ a b

/-! ### Facts about the embedded `Map` operations -/

theorem mapGet_mapSet_self (st : Store) (k : Str) (r : Record) :
    mapGet (mapSet st k r) k = some r := by
  induction st with
  | nil => simp [mapSet, mapGet]
  | cons p rest ih =>
    obtain ⟨k0, v0⟩ := p
    by_cases h : k0 = k
    · simp [mapSet, mapGet, h]
    · simp [mapSet, mapGet, h, ih]

theorem mapGet_mapSet_ne (st : Store) (k q : Str) (r : Record) (h : q ≠ k) :
    mapGet (mapSet st k r) q = mapGet st q := by
  have h' : k ≠ q := fun he => h he.symm
  induction st with
  | nil => simp [mapSet, mapGet, h']
  | cons p rest ih =>
    obtain ⟨k0, v0⟩ := p
    by_cases hk : k0 = k
    · subst hk
      simp [mapSet, mapGet, h']
    · simp only [mapSet, if_neg hk]
      by_cases hq : k0 = q
      · simp [mapGet, hq]
      · simp [mapGet, hq, ih]

theorem mem_mapSet (st : Store) (k : Str) (r : Record) (p : Str × Record)
    (h : p ∈ mapSet st k r) : p ∈ st ∨ p = (k, r) := by
  induction st with
  | nil => simp [mapSet] at h; simp [h]
  | cons q rest ih =>
    obtain ⟨k0, v0⟩ := q
    by_cases hk : k0 = k
    · simp [mapSet, hk] at h
      rcases h with h | h
      · right; simp [h]
      · left; simp [h]
    · simp [mapSet, hk] at h
      rcases h with h | h
      · left; simp [h]
      · rcases ih h with h' | h'
        · left; simp [h']
        · right; exact h'

theorem mem_of_mapGet (st : Store) (k : Str) (r : Record)
    (h : mapGet st k = some r) : (k, r) ∈ st := by
  induction st with
  | nil => simp [mapGet] at h
  | cons p rest ih =>
    obtain ⟨k0, v0⟩ := p
    by_cases hk : k0 = k
    · subst hk
      simp [mapGet] at h
      simp [h]
    · simp [mapGet, hk] at h
      simp [ih h]

theorem mapGet_of_mem (st : Store) (k : Str) (r : Record)
    (hnd : (st.map Prod.fst).Nodup) (h : (k, r) ∈ st) : mapGet st k = some r := by
  induction st with
  | nil => simp at h
  | cons p rest ih =>
    obtain ⟨k0, v0⟩ := p
    simp at h
    rcases h with ⟨h1, h2⟩ | h
    · simp [mapGet, h1, h2]
    · have hmem : k ∈ rest.map Prod.fst := List.mem_map.mpr ⟨(k, r), h, rfl⟩
      have hk : k0 ≠ k := by
        intro he
        rw [List.map_cons, List.nodup_cons] at hnd
        exact hnd.1 (he ▸ hmem)
      simp only [mapGet, if_neg hk]
      rw [List.map_cons, List.nodup_cons] at hnd
      exact ih hnd.2 h

/-! ### Facts about the iteration scans -/

theorem map_id_of_mem {α : Type} (l : List α) (f : α → α)
    (h : ∀ a ∈ l, f a = a) : l.map f = l := by
  induction l with
  | nil => rfl
  | cons x xs ih =>
    rw [List.map_cons, h x (by simp), ih (fun a ha => h a (by simp [ha]))]

theorem addScan_fst_eq (st : Store) (l : Str) :
    (addScan st l).1 = st.map fun p => (p.1, actTrue l p.2) := by
  induction st with
  | nil => rfl
  | cons p rest ih =>
    obtain ⟨k, v⟩ := p
    simp only [addScan, actTrue, List.map_cons]
    by_cases h : v.longUrl = l
    · simp [h, ih, actTrue]
    · simp [h, ih, actTrue]

theorem removeScan_fst_eq (st : Store) (l : Str) :
    (removeScan st l).1 = st.map fun p => (p.1, actFalse l p.2) := by
  induction st with
  | nil => rfl
  | cons p rest ih =>
    obtain ⟨k, v⟩ := p
    simp only [removeScan, actFalse, List.map_cons]
    by_cases h : v.longUrl = l
    · simp [h, ih, actFalse]
    · simp [h, ih, actFalse]

theorem removeScan_snd_eq (st : Store) (l : Str) :
    (removeScan st l).2 = st.any fun p => p.2.longUrl == l := by
  induction st with
  | nil => rfl
  | cons p rest ih =>
    obtain ⟨k, v⟩ := p
    simp only [removeScan, List.any_cons]
    rw [ih]

theorem mapGet_mapRecord (f : Record → Record) (st : Store) (k : Str) :
    mapGet (st.map fun p => (p.1, f p.2)) k = (mapGet st k).map f := by
  induction st with
  | nil => rfl
  | cons p rest ih =>
    obtain ⟨k0, v0⟩ := p
    by_cases h : k0 = k
    · simp [mapGet, h]
    · simp [mapGet, h, ih]

theorem addScan_snd_none_of (st : Store) (l : Str)
    (h : ∀ p ∈ st, p.2.longUrl ≠ l) : (addScan st l).2 = none := by
  induction st with
  | nil => rfl
  | cons p rest ih =>
    obtain ⟨k, v⟩ := p
    have hv : v.longUrl ≠ l := h (k, v) (by simp)
    have hrest := ih (fun q hq => h q (by simp [hq]))
    simp only [addScan, hrest, if_neg hv]

theorem addScan_none_forall (st : Store) (l : Str)
    (h : (addScan st l).2 = none) : ∀ p ∈ st, p.2.longUrl ≠ l := by
  induction st with
  | nil => simp
  | cons p rest ih =>
    obtain ⟨k, v⟩ := p
    simp only [addScan] at h
    cases htl : (addScan rest l).2 with
    | some k2 => rw [htl] at h; simp at h
    | none =>
      rw [htl] at h
      by_cases hv : v.longUrl = l
      · simp [hv] at h
      · intro q hq
        rcases List.mem_cons.mp hq with he | hm
        · rw [he]; exact hv
        · exact ih htl q hm

theorem addScan_fst_of_none (st : Store) (l : Str)
    (h : (addScan st l).2 = none) : (addScan st l).1 = st := by
  rw [addScan_fst_eq]
  have hall := addScan_none_forall st l h
  have : ∀ p ∈ st, ((fun p : Str × Record => (p.1, actTrue l p.2)) p) = p := by
    intro p hp
    simp [actTrue, hall p hp]
  rw [map_id_of_mem st _ this]

theorem addScan_snd_some (st : Store) (l : Str) (k : Str)
    (h : (addScan st l).2 = some k) : ∃ r, (k, r) ∈ st ∧ r.longUrl = l := by
  induction st with
  | nil => simp [addScan] at h
  | cons p rest ih =>
    obtain ⟨k0, v0⟩ := p
    simp only [addScan] at h
    cases htl : (addScan rest l).2 with
    | some k2 =>
      rw [htl] at h
      simp at h
      rcases ih (htl.trans (congrArg some h)) with ⟨r, hm, hl⟩
      exact ⟨r, by simp [hm], hl⟩
    | none =>
      rw [htl] at h
      by_cases hv : v0.longUrl = l
      · simp [hv] at h
        exact ⟨v0, by simp [h], hv⟩
      · simp [hv] at h

theorem addScan_snd_some_of_mem (st : Store) (l : Str) (k : Str) (r : Record)
    (hnd : (st.map fun p => p.2.longUrl).Nodup)
    (hm : (k, r) ∈ st) (hl : r.longUrl = l) : (addScan st l).2 = some k := by
  induction st with
  | nil => simp at hm
  | cons p rest ih =>
    obtain ⟨k0, v0⟩ := p
    rw [List.map_cons, List.nodup_cons] at hnd
    rcases List.mem_cons.mp hm with he | hmem
    · injection he with hk hv
      subst hk
      subst hv
      have hrest : (addScan rest l).2 = none := by
        apply addScan_snd_none_of
        intro q hq hql
        have hq2 : q.2.longUrl ∈ List.map (fun p => p.2.longUrl) rest :=
          List.mem_map.mpr ⟨q, hq, rfl⟩
        rw [hql, ← hl] at hq2
        exact hnd.1 hq2
      simp only [addScan, hrest, if_pos hl]
    · have := ih hnd.2 hmem
      simp only [addScan, this]

theorem lastMatch_none_of (st : Store) (l : Str)
    (h : ∀ p ∈ st, p.2.longUrl ≠ l) : lastMatch st l = none := by
  induction st with
  | nil => rfl
  | cons p rest ih =>
    obtain ⟨k, v⟩ := p
    have hv : v.longUrl ≠ l := h (k, v) (by simp)
    have hrest := ih (fun q hq => h q (by simp [hq]))
    simp only [lastMatch, hrest, if_neg hv]

theorem lastMatch_some (st : Store) (l : Str) (r : Record)
    (h : lastMatch st l = some r) : (∃ k, (k, r) ∈ st) ∧ r.longUrl = l := by
  induction st with
  | nil => simp [lastMatch] at h
  | cons p rest ih =>
    obtain ⟨k0, v0⟩ := p
    simp only [lastMatch] at h
    cases htl : lastMatch rest l with
    | some r2 =>
      rw [htl] at h
      simp at h
      rcases ih (htl.trans (congrArg some h)) with ⟨⟨k, hm⟩, hl⟩
      exact ⟨⟨k, by simp [hm]⟩, hl⟩
    | none =>
      rw [htl] at h
      by_cases hv : v0.longUrl = l
      · simp [hv] at h
        exact ⟨⟨k0, by simp [h.symm]⟩, by rw [← h]; exact hv⟩
      · simp [hv] at h

theorem lastMatch_some_of_mem (st : Store) (l : Str) (k : Str) (r : Record)
    (hnd : (st.map fun p => p.2.longUrl).Nodup)
    (hm : (k, r) ∈ st) (hl : r.longUrl = l) : lastMatch st l = some r := by
  induction st with
  | nil => simp at hm
  | cons p rest ih =>
    obtain ⟨k0, v0⟩ := p
    rw [List.map_cons, List.nodup_cons] at hnd
    rcases List.mem_cons.mp hm with he | hmem
    · injection he with hk hv
      subst hk
      subst hv
      have hrest : lastMatch rest l = none := by
        apply lastMatch_none_of
        intro q hq hql
        have hq2 : q.2.longUrl ∈ List.map (fun p => p.2.longUrl) rest :=
          List.mem_map.mpr ⟨q, hq, rfl⟩
        rw [hql, ← hl] at hq2
        exact hnd.1 hq2
      simp only [lastMatch, hrest, if_pos hl]
    · have := ih hnd.2 hmem
      simp only [lastMatch, this]

/-! ### The validation predicates -/

theorem urlSyntaxError_eq (url : Str) :
    urlSyntaxError url =
      if badSyntax url then some (syntaxErrorRes url) else none := rfl

theorem urlSyntaxError_eq_none_iff (url : Str) :
    urlSyntaxError url = none ↔ badSyntax url = false := by
  rw [urlSyntaxError_eq]
  cases h : badSyntax url <;> simp [h]

theorem urlSyntaxError_of_bad (url : Str) (h : badSyntax url = true) :
    urlSyntaxError url = some (syntaxErrorRes url) := by
  rw [urlSyntaxError_eq, if_pos h]

theorem badSyntax_false_parts (url : Str) (h : badSyntax url = false) :
    (List.isPrefixOf (lit "http://") (strLower url) ||
      List.isPrefixOf (lit "https://") (strLower url)) = true ∧
    (((jsSplit '/' url).get? 2).getD []) ≠ [] ∧
    (((jsSplit '/' url).get? 2).getD []).contains '.' = true := by
  unfold badSyntax at h
  refine ⟨?_, ?_, ?_⟩
  · cases hor : (List.isPrefixOf (lit "http://") (strLower url) ||
        List.isPrefixOf (lit "https://") (strLower url)) with
    | true => rfl
    | false => rw [hor] at h; simp at h
  · intro he
    rw [he] at h
    simp at h
  · cases hcc : (((jsSplit '/' url).get? 2).getD []).contains '.' with
    | true => rfl
    | false => rw [hcc] at h; simp at h

theorem isSameOrigin_false_elim (base u : Str) (h : isSameOrigin base u = false) :
    (jsSplit '/' (strLower u)).get? 2 ≠ some base := by
  intro hq
  unfold isSameOrigin at h
  rw [hq] at h
  simp at h

theorem isSameOrigin_true_elim (base u : Str) (h : isSameOrigin base u = true) :
    (jsSplit '/' (strLower u)).get? 2 = some base := by
  unfold isSameOrigin at h
  cases hq : (jsSplit '/' (strLower u)).get? 2 with
  | none => rw [hq] at h; simp at h
  | some p =>
    rw [hq] at h
    simp at h
    exact congrArg some h

/-- A valid URL case-folds to `<scheme>//` followed by a remainder, with the
scheme one of `http:` / `https:`. -/
theorem valid_scheme (u : Str) (hu : urlSyntaxError u = none) :
    ∃ sch t, (sch = lit "http:" ∨ sch = lit "https:") ∧
      sch.contains '/' = false ∧ strLower sch = sch ∧
      strLower u = sch ++ '/' :: '/' :: t := by
  have hbad := (urlSyntaxError_eq_none_iff u).mp hu
  rcases badSyntax_false_parts u hbad with ⟨hp, -, -⟩
  cases h1 : List.isPrefixOf (lit "http://") (strLower u) with
  | true =>
    obtain ⟨t, ht⟩ := List.isPrefixOf_iff_prefix.mp h1
    refine ⟨lit "http:", t, Or.inl rfl, by decide, by decide, ?_⟩
    rw [← ht]
    rfl
  | false =>
    have h2 : List.isPrefixOf (lit "https://") (strLower u) = true := by
      rw [h1] at hp
      simpa using hp
    obtain ⟨t, ht⟩ := List.isPrefixOf_iff_prefix.mp h2
    refine ⟨lit "https:", t, Or.inr rfl, by decide, by decide, ?_⟩
    rw [← ht]
    rfl

/-- A valid URL's case-folded split is scheme, empty, then the rest. -/
theorem valid_split (u : Str) (hu : urlSyntaxError u = none) :
    ∃ sch t, (sch = lit "http:" ∨ sch = lit "https:") ∧
      sch.contains '/' = false ∧ strLower sch = sch ∧
      strLower u = sch ++ '/' :: '/' :: t ∧
      jsSplit '/' (strLower u) = sch :: [] :: jsSplit '/' t := by
  obtain ⟨sch, t, hor, hc, hl, he⟩ := valid_scheme u hu
  refine ⟨sch, t, hor, hc, hl, he, ?_⟩
  rw [he, jsSplit_append_cons _ _ _ hc, jsSplit_cons_self]

theorem shortUrl_shape (sch d k : Str) :
    sch ++ lit "//" ++ d ++ lit "/" ++ k = sch ++ '/' :: '/' :: (d ++ '/' :: k) := by
  simp [lit, List.append_assoc]

/-- The well-formedness package of a composed short URL
`<scheme>//<domain>/<alias>`: its split, its case-fold, its syntax check
and its origin check. -/
theorem shortUrl_parts (sch d k : Str)
    (hsch : sch = lit "http:" ∨ sch = lit "https:")
    (hd : GoodDomain d) (hk : GoodToken k) :
    jsSplit '/' (sch ++ lit "//" ++ d ++ lit "/" ++ k) = [sch, [], d, k] ∧
    strLower (sch ++ lit "//" ++ d ++ lit "/" ++ k) =
      sch ++ lit "//" ++ d ++ lit "/" ++ k ∧
    urlSyntaxError (sch ++ lit "//" ++ d ++ lit "/" ++ k) = none ∧
    isSameOrigin d (sch ++ lit "//" ++ d ++ lit "/" ++ k) = true := by
  obtain ⟨hd1, hd2, hd3, hd4⟩ := hd
  obtain ⟨hk1, hk2⟩ := hk
  have hcs : sch.contains '/' = false := by
    rcases hsch with h | h <;> rw [h] <;> decide
  have hls : strLower sch = sch := by
    rcases hsch with h | h <;> rw [h] <;> decide
  have hsplit : jsSplit '/' (sch ++ lit "//" ++ d ++ lit "/" ++ k) = [sch, [], d, k] := by
    rw [shortUrl_shape, jsSplit_shortUrl sch d k hcs hd3 hk1]
  have hsl : Char.toLower '/' = '/' := by decide
  have hlow : strLower (sch ++ lit "//" ++ d ++ lit "/" ++ k) =
      sch ++ lit "//" ++ d ++ lit "/" ++ k := by
    rw [shortUrl_shape, strLower_append, strLower_cons, strLower_cons,
      strLower_append, strLower_cons, hls, hd4, hk2, hsl]
  refine ⟨hsplit, hlow, ?_, ?_⟩
  · rw [urlSyntaxError_eq_none_iff]
    unfold badSyntax
    rw [hlow, hsplit]
    have hpre : (List.isPrefixOf (lit "http://") (sch ++ lit "//" ++ d ++ lit "/" ++ k) ||
        List.isPrefixOf (lit "https://") (sch ++ lit "//" ++ d ++ lit "/" ++ k)) = true := by
      rw [shortUrl_shape]
      rcases hsch with h | h <;> rw [h]
      · have : lit "http:" ++ '/' :: '/' :: (d ++ '/' :: k) =
            lit "http://" ++ (d ++ '/' :: k) := rfl
        rw [this]
        have hp : List.isPrefixOf (lit "http://") (lit "http://" ++ (d ++ '/' :: k)) = true := by
          rw [List.isPrefixOf_iff_prefix]
          exact List.prefix_append _ _
        rw [hp, Bool.true_or]
      · have : lit "https:" ++ '/' :: '/' :: (d ++ '/' :: k) =
            lit "https://" ++ (d ++ '/' :: k) := rfl
        rw [this]
        have hp : List.isPrefixOf (lit "https://") (lit "https://" ++ (d ++ '/' :: k)) = true := by
          rw [List.isPrefixOf_iff_prefix]
          exact List.prefix_append _ _
        rw [hp, Bool.or_true]
    rw [hpre]
    have hd2m : '.' ∈ d := by
      simp [List.contains] at hd2
      exact hd2
    simp [hd1, hd2m, List.length_eq_zero]
  · unfold isSameOrigin
    rw [hlow, hsplit]
    simp

/-! ### The store invariant -/

theorem map_ext_of_mem {α β : Type} (l : List α) (f g : α → β)
    (h : ∀ a ∈ l, f a = g a) : l.map f = l.map g := by
  induction l with
  | nil => rfl
  | cons x xs ih =>
    rw [List.map_cons, List.map_cons, h x (by simp),
      ih (fun a ha => h a (by simp [ha]))]

theorem keys_mapRecord (f : Record → Record) (st : Store) :
    ((st.map fun p => (p.1, f p.2)).map Prod.fst) = st.map Prod.fst := by
  rw [List.map_map]
  rfl

theorem longUrls_mapRecord (f : Record → Record) (st : Store)
    (hf : ∀ r, (f r).longUrl = r.longUrl) :
    ((st.map fun p => (p.1, f p.2)).map fun p => p.2.longUrl) =
      st.map fun p => p.2.longUrl := by
  rw [List.map_map]
  exact map_ext_of_mem st _ _ (fun p _ => hf p.2)

theorem actTrue_longUrl (l : Str) (r : Record) : (actTrue l r).longUrl = r.longUrl := by
  unfold actTrue
  split <;> rfl

theorem actFalse_longUrl (l : Str) (r : Record) : (actFalse l r).longUrl = r.longUrl := by
  unfold actFalse
  split <;> rfl

theorem actTrue_count (l : Str) (r : Record) : (actTrue l r).count = r.count := by
  unfold actTrue
  split <;> rfl

theorem actFalse_count (l : Str) (r : Record) : (actFalse l r).count = r.count := by
  unfold actFalse
  split <;> rfl

theorem mem_keys_mapSet (st : Store) (k : Str) (r : Record) (q : Str)
    (h : q ∈ (mapSet st k r).map Prod.fst) : q ∈ st.map Prod.fst ∨ q = k := by
  rcases List.mem_map.mp h with ⟨p, hp, he⟩
  rcases mem_mapSet st k r p hp with h' | h'
  · left
    rw [← he]
    exact List.mem_map.mpr ⟨p, h', rfl⟩
  · right
    rw [← he, h']

theorem mem_longUrls_mapSet (st : Store) (k : Str) (r : Record) (q : Str)
    (h : q ∈ (mapSet st k r).map fun p => p.2.longUrl) :
    (q ∈ st.map fun p => p.2.longUrl) ∨ q = r.longUrl := by
  rcases List.mem_map.mp h with ⟨p, hp, he⟩
  rcases mem_mapSet st k r p hp with h' | h'
  · left
    rw [← he]
    exact List.mem_map.mpr ⟨p, h', rfl⟩
  · right
    rw [← he, h']

theorem nodup_keys_mapSet (st : Store) (k : Str) (r : Record)
    (h : (st.map Prod.fst).Nodup) : ((mapSet st k r).map Prod.fst).Nodup := by
  induction st with
  | nil => simp [mapSet]
  | cons p rest ih =>
    obtain ⟨k0, v0⟩ := p
    rw [List.map_cons, List.nodup_cons] at h
    by_cases hk : k0 = k
    · simp only [mapSet, if_pos hk]
      rw [List.map_cons, List.nodup_cons]
      exact ⟨hk ▸ h.1, h.2⟩
    · simp only [mapSet, if_neg hk]
      rw [List.map_cons, List.nodup_cons]
      refine ⟨?_, ih h.2⟩
      intro hmem
      rcases mem_keys_mapSet rest k r k0 hmem with h' | h'
      · exact h.1 h'
      · exact hk h'

theorem nodup_longUrls_mapSet (st : Store) (k : Str) (r : Record)
    (hnd : (st.map fun p => p.2.longUrl).Nodup)
    (hfresh : ∀ p ∈ st, p.2.longUrl ≠ r.longUrl) :
    ((mapSet st k r).map fun p => p.2.longUrl).Nodup := by
  induction st with
  | nil => simp [mapSet]
  | cons p rest ih =>
    obtain ⟨k0, v0⟩ := p
    rw [List.map_cons, List.nodup_cons] at hnd
    by_cases hk : k0 = k
    · simp only [mapSet, if_pos hk]
      rw [List.map_cons, List.nodup_cons]
      refine ⟨?_, hnd.2⟩
      intro hmem
      rcases List.mem_map.mp hmem with ⟨p, hp, he⟩
      exact hfresh p (by simp [hp]) he
    · simp only [mapSet, if_neg hk]
      rw [List.map_cons, List.nodup_cons]
      refine ⟨?_, ih hnd.2 (fun p hp => hfresh p (by simp [hp]))⟩
      intro hmem
      rcases mem_longUrls_mapSet rest k r _ hmem with h' | h'
      · exact hnd.1 h'
      · exact hfresh (k0, v0) (by simp) h'

/-- Replacing the record at an existing key by one with the same
`longUrl` leaves the list of stored long URLs unchanged. -/
theorem longUrls_mapSet_same (st : Store) (k : Str) (r r' : Record)
    (hget : mapGet st k = some r) (hsame : r'.longUrl = r.longUrl) :
    ((mapSet st k r').map fun p => p.2.longUrl) = st.map fun p => p.2.longUrl := by
  induction st with
  | nil => simp [mapGet] at hget
  | cons p rest ih =>
    obtain ⟨k0, v0⟩ := p
    by_cases hk : k0 = k
    · have hv : v0 = r := by
        simp [mapGet, hk] at hget
        exact hget
      simp only [mapSet, if_pos hk, List.map_cons, hsame, hv]
    · have hget' : mapGet rest k = some r := by
        simp only [mapGet, if_neg hk] at hget
        exact hget
      simp only [mapSet, if_neg hk, List.map_cons, ih hget']

/-! ### Shapes of the four operations -/

theorem add_eq_badUrl (sh : Shortener) (hash u : Str) (e : JsResult)
    (hsyn : urlSyntaxError u = some e) : add sh hash u = (e, sh) := by
  unfold add
  rw [hsyn]

theorem add_eq_domain (sh : Shortener) (hash u : Str)
    (hsyn : urlSyntaxError u = none) (horig : isSameOrigin sh.baseUrl u = true) :
    add sh hash u = (addDomainErr, sh) := by
  unfold add addDomainErr
  rw [hsyn, horig]
  simp

theorem add_eq_reuse (sh : Shortener) (hash u k : Str)
    (hsyn : urlSyntaxError u = none) (horig : isSameOrigin sh.baseUrl u = false)
    (hscan : (addScan sh.collection (strLower u)).2 = some k) (hk : k ≠ []) :
    add sh hash u =
      ({ value := some (JsValue.str ((jsSplit '/' (strLower u)).getD 0 [] ++
           lit "//" ++ sh.baseUrl ++ lit "/" ++ k)) },
       { sh with collection := (addScan sh.collection (strLower u)).1 }) := by
  have hkb : k.isEmpty = false := by
    cases k with
    | nil => exact absurd rfl hk
    | cons a t => rfl
  unfold add
  rw [hsyn, horig]
  simp only [Bool.false_eq_true, if_false]
  rw [hscan]
  simp only [hkb, Bool.false_eq_true, if_false]

/-- The falsy corner of `if (exists)`: the matched key is the empty
string, so `add` inserts a fresh record on top of the reactivation. -/
theorem add_eq_reuseEmpty (sh : Shortener) (hash u : Str)
    (hsyn : urlSyntaxError u = none) (horig : isSameOrigin sh.baseUrl u = false)
    (hscan : (addScan sh.collection (strLower u)).2 = some []) :
    add sh hash u =
      ({ value := some (JsValue.str ((jsSplit '/' (strLower u)).getD 0 [] ++
           lit "//" ++ sh.baseUrl ++ lit "/" ++ hash)) },
       { sh with collection :=
           mapSet (addScan sh.collection (strLower u)).1 hash { longUrl := strLower u, count := 0, active := true } }) := by
  unfold add
  rw [hsyn, horig]
  simp only [Bool.false_eq_true, if_false]
  rw [hscan]
  simp only [List.isEmpty_nil, if_true]

theorem add_eq_fresh (sh : Shortener) (hash u : Str)
    (hsyn : urlSyntaxError u = none) (horig : isSameOrigin sh.baseUrl u = false)
    (hscan : (addScan sh.collection (strLower u)).2 = none) :
    add sh hash u =
      ({ value := some (JsValue.str ((jsSplit '/' (strLower u)).getD 0 [] ++
           lit "//" ++ sh.baseUrl ++ lit "/" ++ hash)) },
       { sh with collection :=
           mapSet sh.collection hash { longUrl := strLower u, count := 0, active := true } }) := by
  unfold add
  rw [hsyn, horig]
  simp only [Bool.false_eq_true, if_false]
  rw [hscan, addScan_fst_of_none _ _ hscan]

theorem query_eq_badUrl (sh : Shortener) (u : Str) (e : JsResult)
    (hsyn : urlSyntaxError u = some e) : query sh u = (e, sh) := by
  unfold query
  rw [hsyn]

theorem query_eq_domain (sh : Shortener) (u : Str)
    (hsyn : urlSyntaxError u = none) (horig : isSameOrigin sh.baseUrl u = false) :
    query sh u = (queryDomainErr, sh) := by
  unfold query queryDomainErr
  rw [hsyn, horig]
  simp

theorem query_eq_noalias (sh : Shortener) (u : Str)
    (hsyn : urlSyntaxError u = none) (horig : isSameOrigin sh.baseUrl u = true)
    (halias : (jsSplit '/' u).get? 3 = none) :
    query sh u = (queryNotFound u, sh) := by
  unfold query
  rw [hsyn, horig]
  simp only [Bool.not_true, Bool.false_eq_true, if_false]
  rw [halias]

theorem query_eq_missing (sh : Shortener) (u k : Str)
    (hsyn : urlSyntaxError u = none) (horig : isSameOrigin sh.baseUrl u = true)
    (halias : (jsSplit '/' u).get? 3 = some k)
    (hget : mapGet sh.collection k = none) :
    query sh u = (queryNotFound u, sh) := by
  unfold query
  rw [hsyn, horig]
  simp only [Bool.not_true, Bool.false_eq_true, if_false]
  simp only [halias, hget]

theorem query_eq_inactive (sh : Shortener) (u k : Str) (r : Record)
    (hsyn : urlSyntaxError u = none) (horig : isSameOrigin sh.baseUrl u = true)
    (halias : (jsSplit '/' u).get? 3 = some k)
    (hget : mapGet sh.collection k = some r)
    (hcond : (!r.longUrl.isEmpty && r.active) = false) :
    query sh u = (queryNotFound u, sh) := by
  unfold query
  rw [hsyn, horig]
  simp only [Bool.not_true, Bool.false_eq_true, if_false]
  simp only [halias, hget, hcond, Bool.false_eq_true, if_false]

theorem query_eq_hit (sh : Shortener) (u k : Str) (r : Record)
    (hsyn : urlSyntaxError u = none) (horig : isSameOrigin sh.baseUrl u = true)
    (halias : (jsSplit '/' u).get? 3 = some k)
    (hget : mapGet sh.collection k = some r)
    (hne : r.longUrl ≠ []) (hact : r.active = true) :
    query sh u =
      ({ value := some (JsValue.str r.longUrl) },
       { sh with collection :=
           mapSet sh.collection k { r with count := r.count + 1 } }) := by
  unfold query
  rw [hsyn, horig]
  simp only [Bool.not_true, Bool.false_eq_true, if_false]
  have hemp : r.longUrl.isEmpty = false := by
    cases hl : r.longUrl.isEmpty
    · rfl
    · exact absurd (List.isEmpty_iff.mp hl) hne
  simp only [halias, hget, hemp, hact, Bool.not_false, Bool.and_self, if_true]

theorem count_eq_badUrl (sh : Shortener) (u : Str) (e : JsResult)
    (hsyn : urlSyntaxError u = some e) : count sh u = (e, sh) := by
  unfold count
  rw [hsyn]

theorem count_eq_aliasHit (sh : Shortener) (u k : Str) (r : Record)
    (hsyn : urlSyntaxError u = none) (horig : isSameOrigin sh.baseUrl u = true)
    (halias : (jsSplit '/' u).get? 3 = some k)
    (hget : mapGet sh.collection k = some r) :
    count sh u = ({ value := some (JsValue.num r.count) }, sh) := by
  unfold count
  rw [hsyn]
  have halias2 : (jsSplit '/' u)[3]? = some k := by
    rw [← List.get?_eq_getElem?]
    exact halias
  simp [horig, halias2, hget]

theorem count_eq_scan (sh : Shortener) (u : Str)
    (hsyn : urlSyntaxError u = none)
    (hvia : (if isSameOrigin sh.baseUrl u = true then
               match (jsSplit '/' u).get? 3 with
               | some k => (mapGet sh.collection k).map Record.count
               | none => none
             else none) = none) :
    count sh u = (match lastMatch sh.collection (strLower u) with
      | some r => ({ value := some (JsValue.num r.count) }, sh)
      | none => (notFoundRes, sh)) := by
  unfold count
  rw [hsyn]
  simp only [hvia]

theorem count_via_none_notOrigin (sh : Shortener) (u : Str)
    (horig : isSameOrigin sh.baseUrl u = false) :
    (if isSameOrigin sh.baseUrl u = true then
       match (jsSplit '/' u).get? 3 with
       | some k => (mapGet sh.collection k).map Record.count
       | none => none
     else none) = none := by
  simp [horig]

theorem count_via_none_noalias (sh : Shortener) (u : Str)
    (halias : (jsSplit '/' u).get? 3 = none) :
    (if isSameOrigin sh.baseUrl u = true then
       match (jsSplit '/' u).get? 3 with
       | some k => (mapGet sh.collection k).map Record.count
       | none => none
     else none) = none := by
  have halias2 : (jsSplit '/' u)[3]? = none := by
    rw [← List.get?_eq_getElem?]
    exact halias
  by_cases horig : isSameOrigin sh.baseUrl u = true <;> simp [horig, halias2]

theorem count_via_none_missing (sh : Shortener) (u k : Str)
    (halias : (jsSplit '/' u).get? 3 = some k)
    (hget : mapGet sh.collection k = none) :
    (if isSameOrigin sh.baseUrl u = true then
       match (jsSplit '/' u).get? 3 with
       | some k => (mapGet sh.collection k).map Record.count
       | none => none
     else none) = none := by
  have halias2 : (jsSplit '/' u)[3]? = some k := by
    rw [← List.get?_eq_getElem?]
    exact halias
  by_cases horig : isSameOrigin sh.baseUrl u = true <;> simp [horig, halias2, hget]

/-- `count` never mutates the store. -/
theorem count_snd (sh : Shortener) (u : Str) : (count sh u).2 = sh := by
  unfold count
  cases hsyn : urlSyntaxError u with
  | some e => rfl
  | none =>
    cases hvia : (if isSameOrigin sh.baseUrl u = true then
        match (jsSplit '/' u).get? 3 with
        | some k => (mapGet sh.collection k).map Record.count
        | none => none
      else none) with
    | some n => simp only [hvia]
    | none =>
      simp only [hvia]
      cases hlast : lastMatch sh.collection (strLower u) <;> simp [hlast]

theorem remove_eq_badUrl (sh : Shortener) (u : Str) (e : JsResult)
    (hsyn : urlSyntaxError u = some e) : remove sh u = (e, sh) := by
  unfold remove
  rw [hsyn]

theorem remove_eq_alias (sh : Shortener) (u k : Str) (r : Record)
    (hsyn : urlSyntaxError u = none) (horig : isSameOrigin sh.baseUrl u = true)
    (halias : (jsSplit '/' u).get? 3 = some k)
    (hget : mapGet sh.collection k = some r) :
    remove sh u =
      (({} : JsResult),
       { sh with collection := mapSet sh.collection k { r with active := false } }) := by
  unfold remove
  rw [hsyn]
  have halias2 : (jsSplit '/' u)[3]? = some k := by
    rw [← List.get?_eq_getElem?]
    exact halias
  simp [horig, halias2, hget]

theorem remove_eq_scan (sh : Shortener) (u : Str)
    (hsyn : urlSyntaxError u = none)
    (hvia : (if isSameOrigin sh.baseUrl u = true then
               match (jsSplit '/' u).get? 3 with
               | some k => (mapGet sh.collection k).map (fun r => (k, r))
               | none => none
             else none) = none) :
    remove sh u =
      (if (removeScan sh.collection (strLower u)).2 = true then ({} : JsResult)
       else notFoundRes,
       { sh with collection := (removeScan sh.collection (strLower u)).1 }) := by
  unfold remove
  rw [hsyn]
  simp only [hvia]
  cases hflag : (removeScan sh.collection (strLower u)).2 <;> simp [hflag]

theorem remove_via_none_notOrigin (sh : Shortener) (u : Str)
    (horig : isSameOrigin sh.baseUrl u = false) :
    (if isSameOrigin sh.baseUrl u = true then
       match (jsSplit '/' u).get? 3 with
       | some k => (mapGet sh.collection k).map (fun r => (k, r))
       | none => none
     else none) = none := by
  simp [horig]

theorem remove_via_none_noalias (sh : Shortener) (u : Str)
    (halias : (jsSplit '/' u).get? 3 = none) :
    (if isSameOrigin sh.baseUrl u = true then
       match (jsSplit '/' u).get? 3 with
       | some k => (mapGet sh.collection k).map (fun r => (k, r))
       | none => none
     else none) = none := by
  have halias2 : (jsSplit '/' u)[3]? = none := by
    rw [← List.get?_eq_getElem?]
    exact halias
  by_cases horig : isSameOrigin sh.baseUrl u = true <;> simp [horig, halias2]

theorem remove_via_none_missing (sh : Shortener) (u k : Str)
    (halias : (jsSplit '/' u).get? 3 = some k)
    (hget : mapGet sh.collection k = none) :
    (if isSameOrigin sh.baseUrl u = true then
       match (jsSplit '/' u).get? 3 with
       | some k => (mapGet sh.collection k).map (fun r => (k, r))
       | none => none
     else none) = none := by
  have halias2 : (jsSplit '/' u)[3]? = some k := by
    rw [← List.get?_eq_getElem?]
    exact halias
  by_cases horig : isSameOrigin sh.baseUrl u = true <;> simp [horig, halias2, hget]

theorem removeScan_flag_false_forall (st : Store) (l : Str)
    (h : (removeScan st l).2 = false) : ∀ p ∈ st, p.2.longUrl ≠ l := by
  rw [removeScan_snd_eq] at h
  intro p hp he
  have ht : st.any (fun p => p.2.longUrl == l) = true :=
    List.any_eq_true.mpr ⟨p, hp, by simp [he]⟩
  rw [h] at ht
  exact Bool.false_ne_true ht

theorem removeScan_fst_of_flag_false (st : Store) (l : Str)
    (h : (removeScan st l).2 = false) : (removeScan st l).1 = st := by
  rw [removeScan_fst_eq]
  apply map_id_of_mem
  intro p hp
  simp [actFalse, removeScan_flag_false_forall st l h p hp]

theorem removeScan_flag_true_of_mem (st : Store) (l : Str) (p : Str × Record)
    (hp : p ∈ st) (hl : p.2.longUrl = l) : (removeScan st l).2 = true := by
  rw [removeScan_snd_eq]
  exact List.any_eq_true.mpr ⟨p, hp, by simp [hl]⟩

/-! ### Preservation of the invariant -/

theorem wf_init (d : Str) : WF (initShortener d) := by
  refine ⟨by simp [initShortener], by simp [initShortener], ?_⟩
  intro p hp
  simp [initShortener] at hp

/-- Replacing the record at an existing key by one with the same
`longUrl` preserves the invariant. -/
theorem wf_mapSet_same (sh : Shortener) (k : Str) (r r2 : Record) (hwf : WF sh)
    (hget : mapGet sh.collection k = some r) (hsame : r2.longUrl = r.longUrl) :
    WF { sh with collection := mapSet sh.collection k r2 } := by
  obtain ⟨hknd, hlnd, hrec⟩ := hwf
  refine ⟨nodup_keys_mapSet _ _ _ hknd, ?_, ?_⟩
  · show ((mapSet sh.collection k r2).map fun p => p.2.longUrl).Nodup
    rw [longUrls_mapSet_same sh.collection k r r2 hget hsame]
    exact hlnd
  · intro p hp
    have hp2 : p ∈ mapSet sh.collection k r2 := hp
    show GoodToken p.1 ∧ p.2.longUrl ≠ [] ∧
      (jsSplit '/' p.2.longUrl).get? 2 ≠ some sh.baseUrl
    rcases mem_mapSet _ _ _ _ hp2 with hmem | he
    · exact hrec p hmem
    · have h0 := hrec (k, r) (mem_of_mapGet _ _ _ hget)
      rw [he]
      refine ⟨h0.1, ?_, ?_⟩
      · show r2.longUrl ≠ []
        rw [hsame]
        exact h0.2.1
      · show (jsSplit '/' r2.longUrl).get? 2 ≠ some sh.baseUrl
        rw [hsame]
        exact h0.2.2

/-- Rewriting every record by a `longUrl`-preserving transform (the
`forEach` loops of `add` and `remove`) preserves the invariant. -/
theorem wf_mapRecord (sh : Shortener) (f : Record → Record)
    (hf : ∀ r, (f r).longUrl = r.longUrl) (hwf : WF sh) :
    WF { sh with collection := sh.collection.map fun p => (p.1, f p.2) } := by
  obtain ⟨hknd, hlnd, hrec⟩ := hwf
  refine ⟨?_, ?_, ?_⟩
  · show ((sh.collection.map fun p => (p.1, f p.2)).map Prod.fst).Nodup
    rw [keys_mapRecord]
    exact hknd
  · show ((sh.collection.map fun p => (p.1, f p.2)).map fun p => p.2.longUrl).Nodup
    rw [longUrls_mapRecord _ _ hf]
    exact hlnd
  · intro p hp
    have hp2 : p ∈ sh.collection.map fun p => (p.1, f p.2) := hp
    rcases List.mem_map.mp hp2 with ⟨p0, hp0, he⟩
    have h0 := hrec p0 hp0
    show GoodToken p.1 ∧ p.2.longUrl ≠ [] ∧
      (jsSplit '/' p.2.longUrl).get? 2 ≠ some sh.baseUrl
    rw [← he]
    refine ⟨h0.1, ?_, ?_⟩
    · show (f p0.2).longUrl ≠ []
      rw [hf]
      exact h0.2.1
    · show (jsSplit '/' (f p0.2).longUrl).get? 2 ≠ some sh.baseUrl
      rw [hf]
      exact h0.2.2

/-- `add` preserves the invariant as long as the reactivation loop does
not match a record stored under the empty key (in that one corner the
falsy `if (exists)` inserts a duplicate long URL, see
`add_duplicate_on_empty_alias`). -/
theorem wf_add (sh : Shortener) (hash u : Str) (hwf : WF sh)
    (hh : GoodToken hash)
    (hnem : (addScan sh.collection (strLower u)).2 ≠ some []) :
    WF (add sh hash u).2 := by
  cases hsyn : urlSyntaxError u with
  | some e =>
    rw [add_eq_badUrl sh hash u e hsyn]
    exact hwf
  | none =>
    cases horig : isSameOrigin sh.baseUrl u with
    | true =>
      rw [add_eq_domain sh hash u hsyn horig]
      exact hwf
    | false =>
      cases hscan : (addScan sh.collection (strLower u)).2 with
      | some k =>
        have hk : k ≠ [] := by
          intro he
          rw [he] at hscan
          exact hnem hscan
        rw [add_eq_reuse sh hash u k hsyn horig hscan hk]
        show WF { sh with collection := (addScan sh.collection (strLower u)).1 }
        rw [addScan_fst_eq]
        exact wf_mapRecord sh (actTrue (strLower u)) (actTrue_longUrl _) hwf
      | none =>
        rw [add_eq_fresh sh hash u hsyn horig hscan]
        obtain ⟨hknd, hlnd, hrec⟩ := hwf
        have hfresh : ∀ p ∈ sh.collection, p.2.longUrl ≠ strLower u :=
          addScan_none_forall _ _ hscan
        refine ⟨nodup_keys_mapSet _ _ _ hknd,
          nodup_longUrls_mapSet _ _ _ hlnd hfresh, ?_⟩
        intro p hp
        have hp2 : p ∈ mapSet sh.collection hash { longUrl := strLower u, count := 0, active := true } := hp
        show GoodToken p.1 ∧ p.2.longUrl ≠ [] ∧
          (jsSplit '/' p.2.longUrl).get? 2 ≠ some sh.baseUrl
        rcases mem_mapSet _ _ _ _ hp2 with hmem | he
        · exact hrec p hmem
        · rw [he]
          refine ⟨hh, ?_, ?_⟩
          · show strLower u ≠ []
            obtain ⟨sch, t, hor, -, -, hdec⟩ := valid_scheme u hsyn
            rw [hdec]
            intro heq
            have h2 := (List.append_eq_nil.mp heq).2
            simp at h2
          · show (jsSplit '/' (strLower u)).get? 2 ≠ some sh.baseUrl
            exact isSameOrigin_false_elim sh.baseUrl u horig

theorem wf_query (sh : Shortener) (u : Str) (hwf : WF sh) : WF (query sh u).2 := by
  cases hsyn : urlSyntaxError u with
  | some e =>
    rw [query_eq_badUrl sh u e hsyn]
    exact hwf
  | none =>
    cases horig : isSameOrigin sh.baseUrl u with
    | false =>
      rw [query_eq_domain sh u hsyn horig]
      exact hwf
    | true =>
      cases halias : (jsSplit '/' u).get? 3 with
      | none =>
        rw [query_eq_noalias sh u hsyn horig halias]
        exact hwf
      | some k =>
        cases hget : mapGet sh.collection k with
        | none =>
          rw [query_eq_missing sh u k hsyn horig halias hget]
          exact hwf
        | some r =>
          by_cases hcond : r.longUrl ≠ [] ∧ r.active = true
          · rw [query_eq_hit sh u k r hsyn horig halias hget hcond.1 hcond.2]
            exact wf_mapSet_same sh k r { r with count := r.count + 1 } hwf hget rfl
          · have hcondb : (!r.longUrl.isEmpty && r.active) = false := by
              rcases not_and_or.mp hcond with h | h
              · have he : r.longUrl = [] := not_not.mp h
                simp [he]
              · have ha : r.active = false := by
                  cases hr : r.active
                  · rfl
                  · exact absurd hr h
                simp [ha]
            rw [query_eq_inactive sh u k r hsyn horig halias hget hcondb]
            exact hwf

theorem wf_count (sh : Shortener) (u : Str) (hwf : WF sh) : WF (count sh u).2 := by
  rw [count_snd]
  exact hwf

theorem wf_remove (sh : Shortener) (u : Str) (hwf : WF sh) : WF (remove sh u).2 := by
  cases hsyn : urlSyntaxError u with
  | some e =>
    rw [remove_eq_badUrl sh u e hsyn]
    exact hwf
  | none =>
    have hscanState : WF { sh with collection := (removeScan sh.collection (strLower u)).1 } := by
      rw [removeScan_fst_eq]
      exact wf_mapRecord sh (actFalse (strLower u)) (actFalse_longUrl _) hwf
    cases horig : isSameOrigin sh.baseUrl u with
    | false =>
      rw [remove_eq_scan sh u hsyn (remove_via_none_notOrigin sh u horig)]
      exact hscanState
    | true =>
      cases halias : (jsSplit '/' u).get? 3 with
      | none =>
        rw [remove_eq_scan sh u hsyn (remove_via_none_noalias sh u halias)]
        exact hscanState
      | some k =>
        cases hget : mapGet sh.collection k with
        | none =>
          rw [remove_eq_scan sh u hsyn (remove_via_none_missing sh u k halias hget)]
          exact hscanState
        | some r =>
          rw [remove_eq_alias sh u k r hsyn horig halias hget]
          exact wf_mapSet_same sh k r { r with active := false } hwf hget rfl

/-! ### Result classification helpers -/

theorem urlSyntaxError_some_inv (u : Str) (e : JsResult)
    (h : urlSyntaxError u = some e) : e = syntaxErrorRes u ∧ badSyntax u = true := by
  rw [urlSyntaxError_eq] at h
  by_cases hb : badSyntax u = true
  · rw [if_pos hb] at h
    exact ⟨(Option.some.inj h).symm, hb⟩
  · rw [if_neg hb] at h
    cases h

theorem badSyntax_iff (u : Str) :
    badSyntax u = true ↔
      ((¬ (List.isPrefixOf (lit "http://") (strLower u) = true ∨
           List.isPrefixOf (lit "https://") (strLower u) = true)) ∨
       ((jsSplit '/' u).get? 2).getD [] = [] ∨
       ¬ ((((jsSplit '/' u).get? 2).getD []).contains '.' = true)) := by
  unfold badSyntax
  cases h1 : List.isPrefixOf (lit "http://") (strLower u) <;>
    cases h2 : List.isPrefixOf (lit "https://") (strLower u) <;>
      cases h3 : (((jsSplit '/' u).get? 2).getD []).contains '.' <;>
        simp [h1, h2, h3, List.length_eq_zero]

theorem add_error_of_valid (sh : Shortener) (hash u : Str)
    (hsyn : urlSyntaxError u = none) :
    (add sh hash u).1.error = none ∨ (add sh hash u).1 = addDomainErr := by
  cases horig : isSameOrigin sh.baseUrl u with
  | true =>
    right
    rw [add_eq_domain _ _ _ hsyn horig]
  | false =>
    left
    cases hscan : (addScan sh.collection (strLower u)).2 with
    | some k =>
      by_cases hk : k = []
      · rw [hk] at hscan
        rw [add_eq_reuseEmpty _ _ _ hsyn horig hscan]
      · rw [add_eq_reuse _ _ _ _ hsyn horig hscan hk]
    | none => rw [add_eq_fresh _ _ _ hsyn horig hscan]

theorem query_error_of_valid (sh : Shortener) (u : Str)
    (hsyn : urlSyntaxError u = none) :
    (query sh u).1.error = none ∨ (query sh u).1 = queryDomainErr ∨
      (query sh u).1 = queryNotFound u := by
  cases horig : isSameOrigin sh.baseUrl u with
  | false =>
    right; left
    rw [query_eq_domain _ _ hsyn horig]
  | true =>
    cases halias : (jsSplit '/' u).get? 3 with
    | none =>
      right; right
      rw [query_eq_noalias _ _ hsyn horig halias]
    | some k =>
      cases hget : mapGet sh.collection k with
      | none =>
        right; right
        rw [query_eq_missing _ _ _ hsyn horig halias hget]
      | some r =>
        by_cases hcond : r.longUrl ≠ [] ∧ r.active = true
        · left
          rw [query_eq_hit _ _ _ _ hsyn horig halias hget hcond.1 hcond.2]
        · right; right
          have hcondb : (!r.longUrl.isEmpty && r.active) = false := by
            rcases not_and_or.mp hcond with h | h
            · have he : r.longUrl = [] := not_not.mp h
              simp [he]
            · have ha : r.active = false := by
                cases hr : r.active
                · rfl
                · exact absurd hr h
              simp [ha]
          rw [query_eq_inactive _ _ _ _ hsyn horig halias hget hcondb]

theorem count_error_of_valid (sh : Shortener) (u : Str)
    (hsyn : urlSyntaxError u = none) :
    (count sh u).1.error = none ∨ (count sh u).1 = notFoundRes := by
  by_cases horig : isSameOrigin sh.baseUrl u = true
  · cases halias : (jsSplit '/' u).get? 3 with
    | some k =>
      cases hget : mapGet sh.collection k with
      | some r =>
        left
        rw [count_eq_aliasHit _ _ _ _ hsyn horig halias hget]
      | none =>
        rw [count_eq_scan _ _ hsyn (count_via_none_missing _ _ _ halias hget)]
        cases hlast : lastMatch sh.collection (strLower u) <;> simp [hlast]
    | none =>
      rw [count_eq_scan _ _ hsyn (count_via_none_noalias _ _ halias)]
      cases hlast : lastMatch sh.collection (strLower u) <;> simp [hlast]
  · have horigf : isSameOrigin sh.baseUrl u = false := by
      cases h2 : isSameOrigin sh.baseUrl u
      · rfl
      · exact absurd h2 horig
    rw [count_eq_scan _ _ hsyn (count_via_none_notOrigin _ _ horigf)]
    cases hlast : lastMatch sh.collection (strLower u) <;> simp [hlast]

theorem remove_error_of_valid (sh : Shortener) (u : Str)
    (hsyn : urlSyntaxError u = none) :
    (remove sh u).1.error = none ∨ (remove sh u).1 = notFoundRes := by
  by_cases horig : isSameOrigin sh.baseUrl u = true
  · cases halias : (jsSplit '/' u).get? 3 with
    | some k =>
      cases hget : mapGet sh.collection k with
      | some r =>
        left
        rw [remove_eq_alias _ _ _ _ hsyn horig halias hget]
      | none =>
        rw [remove_eq_scan _ _ hsyn (remove_via_none_missing _ _ _ halias hget)]
        cases hflag : (removeScan sh.collection (strLower u)).2 <;> simp [hflag, notFoundRes]
    | none =>
      rw [remove_eq_scan _ _ hsyn (remove_via_none_noalias _ _ halias)]
      cases hflag : (removeScan sh.collection (strLower u)).2 <;> simp [hflag, notFoundRes]
  · have horigf : isSameOrigin sh.baseUrl u = false := by
      cases h2 : isSameOrigin sh.baseUrl u
      · rfl
      · exact absurd h2 horig
    rw [remove_eq_scan _ _ hsyn (remove_via_none_notOrigin _ _ horigf)]
    cases hflag : (removeScan sh.collection (strLower u)).2 <;> simp [hflag, notFoundRes]

/-! ### The claims -/

/-- C8: for every string input to any of the four operations, the
operation returns a `URL_SYNTAX` error exactly when the string does not
case-insensitively begin with `http://` or `https://`, or the third
`/`-delimited segment is empty, or that segment contains no `.`; and
when the condition holds every operation returns exactly the
`URL_SYNTAX` failure object with the store unchanged, before any other
check or mutation. -/
theorem url_syntax_gate (sh : Shortener) (hash u : Str) :
    (((¬ (List.isPrefixOf (lit "http://") (strLower u) = true ∨
          List.isPrefixOf (lit "https://") (strLower u) = true)) ∨
      ((jsSplit '/' u).get? 2).getD [] = [] ∨
      ¬ ((((jsSplit '/' u).get? 2).getD []).contains '.' = true)) ↔
        errCode (add sh hash u).1 = some (lit "URL_SYNTAX")) ∧
    (errCode (add sh hash u).1 = some (lit "URL_SYNTAX") ↔
      errCode (query sh u).1 = some (lit "URL_SYNTAX")) ∧
    (errCode (query sh u).1 = some (lit "URL_SYNTAX") ↔
      errCode (count sh u).1 = some (lit "URL_SYNTAX")) ∧
    (errCode (count sh u).1 = some (lit "URL_SYNTAX") ↔
      errCode (remove sh u).1 = some (lit "URL_SYNTAX")) ∧
    ((¬ (List.isPrefixOf (lit "http://") (strLower u) = true ∨
         List.isPrefixOf (lit "https://") (strLower u) = true)) ∨
      ((jsSplit '/' u).get? 2).getD [] = [] ∨
      ¬ ((((jsSplit '/' u).get? 2).getD []).contains '.' = true) →
      add sh hash u = (syntaxErrorRes u, sh) ∧
      query sh u = (syntaxErrorRes u, sh) ∧
      count sh u = (syntaxErrorRes u, sh) ∧
      remove sh u = (syntaxErrorRes u, sh)) := by
  by_cases hb : badSyntax u = true
  · have hcond := (badSyntax_iff u).mp hb
    have hsome : urlSyntaxError u = some (syntaxErrorRes u) := urlSyntaxError_of_bad u hb
    have ha := add_eq_badUrl sh hash u _ hsome
    have hq := query_eq_badUrl sh u _ hsome
    have hc := count_eq_badUrl sh u _ hsome
    have hr := remove_eq_badUrl sh u _ hsome
    have hcode : errCode (syntaxErrorRes u) = some (lit "URL_SYNTAX") := rfl
    refine ⟨?_, ?_, ?_, ?_, fun _ => ⟨ha, hq, hc, hr⟩⟩
    · constructor
      · intro _
        rw [ha]
        exact hcode
      · intro _
        exact hcond
    · rw [ha, hq]
    · rw [hq, hc]
    · rw [hc, hr]
  · have hbf : badSyntax u = false := by
      cases h2 : badSyntax u
      · rfl
      · exact absurd h2 hb
    have hcond : ¬ ((¬ (List.isPrefixOf (lit "http://") (strLower u) = true ∨
          List.isPrefixOf (lit "https://") (strLower u) = true)) ∨
        ((jsSplit '/' u).get? 2).getD [] = [] ∨
        ¬ ((((jsSplit '/' u).get? 2).getD []).contains '.' = true)) := by
      intro hc
      exact hb ((badSyntax_iff u).mpr hc)
    have hsyn : urlSyntaxError u = none := (urlSyntaxError_eq_none_iff u).mpr hbf
    have hane : ¬ errCode (add sh hash u).1 = some (lit "URL_SYNTAX") := by
      rcases add_error_of_valid sh hash u hsyn with h | h
      · simp [errCode, h]
      · rw [h]
        intro hcontra
        have : lit "DOMAIN" = lit "URL_SYNTAX" := Option.some.inj hcontra
        exact absurd this (by decide)
    have hqne : ¬ errCode (query sh u).1 = some (lit "URL_SYNTAX") := by
      rcases query_error_of_valid sh u hsyn with h | h | h
      · simp [errCode, h]
      · rw [h]
        intro hcontra
        have : lit "DOMAIN" = lit "URL_SYNTAX" := Option.some.inj hcontra
        exact absurd this (by decide)
      · rw [h]
        intro hcontra
        have : lit "NOT_FOUND" = lit "URL_SYNTAX" := Option.some.inj hcontra
        exact absurd this (by decide)
    have hcne : ¬ errCode (count sh u).1 = some (lit "URL_SYNTAX") := by
      rcases count_error_of_valid sh u hsyn with h | h
      · simp [errCode, h]
      · rw [h]
        intro hcontra
        have : lit "NOT_FOUND" = lit "URL_SYNTAX" := Option.some.inj hcontra
        exact absurd this (by decide)
    have hrne : ¬ errCode (remove sh u).1 = some (lit "URL_SYNTAX") := by
      rcases remove_error_of_valid sh u hsyn with h | h
      · simp [errCode, h]
      · rw [h]
        intro hcontra
        have : lit "NOT_FOUND" = lit "URL_SYNTAX" := Option.some.inj hcontra
        exact absurd this (by decide)
    exact ⟨⟨fun hc => absurd hc hcond, fun hc => absurd hc hane⟩,
      ⟨fun hc => absurd hc hane, fun hc => absurd hc hqne⟩,
      ⟨fun hc => absurd hc hqne, fun hc => absurd hc hcne⟩,
      ⟨fun hc => absurd hc hcne, fun hc => absurd hc hrne⟩,
      fun hc => absurd hc hcond⟩

/-- C9: whenever an operation returns a failure result, the store is
exactly as before the call; `count` never mutates at all. -/
theorem error_atomicity (sh : Shortener) (hash u : Str) :
    ((add sh hash u).1.error.isSome = true → (add sh hash u).2 = sh) ∧
    ((query sh u).1.error.isSome = true → (query sh u).2 = sh) ∧
    (count sh u).2 = sh ∧
    ((remove sh u).1.error.isSome = true → (remove sh u).2 = sh) := by
  refine ⟨?_, ?_, count_snd sh u, ?_⟩
  · intro herr
    cases hsyn : urlSyntaxError u with
    | some e => rw [add_eq_badUrl sh hash u e hsyn]
    | none =>
      cases horig : isSameOrigin sh.baseUrl u with
      | true => rw [add_eq_domain sh hash u hsyn horig]
      | false =>
        exfalso
        cases hscan : (addScan sh.collection (strLower u)).2 with
        | some k =>
          by_cases hk : k = []
          · rw [hk] at hscan
            rw [add_eq_reuseEmpty sh hash u hsyn horig hscan] at herr
            cases herr
          · rw [add_eq_reuse sh hash u k hsyn horig hscan hk] at herr
            cases herr
        | none =>
          rw [add_eq_fresh sh hash u hsyn horig hscan] at herr
          cases herr
  · intro herr
    cases hsyn : urlSyntaxError u with
    | some e => rw [query_eq_badUrl sh u e hsyn]
    | none =>
      cases horig : isSameOrigin sh.baseUrl u with
      | false => rw [query_eq_domain sh u hsyn horig]
      | true =>
        cases halias : (jsSplit '/' u).get? 3 with
        | none => rw [query_eq_noalias sh u hsyn horig halias]
        | some k =>
          cases hget : mapGet sh.collection k with
          | none => rw [query_eq_missing sh u k hsyn horig halias hget]
          | some r =>
            by_cases hcond : r.longUrl ≠ [] ∧ r.active = true
            · exfalso
              rw [query_eq_hit sh u k r hsyn horig halias hget hcond.1 hcond.2] at herr
              cases herr
            · have hcondb : (!r.longUrl.isEmpty && r.active) = false := by
                rcases not_and_or.mp hcond with h | h
                · have he : r.longUrl = [] := not_not.mp h
                  simp [he]
                · have ha2 : r.active = false := by
                    cases hr : r.active
                    · rfl
                    · exact absurd hr h
                  simp [ha2]
              rw [query_eq_inactive sh u k r hsyn horig halias hget hcondb]
  · intro herr
    cases hsyn : urlSyntaxError u with
    | some e => rw [remove_eq_badUrl sh u e hsyn]
    | none =>
      by_cases horig : isSameOrigin sh.baseUrl u = true
      · cases halias : (jsSplit '/' u).get? 3 with
        | some k =>
          cases hget : mapGet sh.collection k with
          | some r =>
            exfalso
            rw [remove_eq_alias sh u k r hsyn horig halias hget] at herr
            cases herr
          | none =>
            rw [remove_eq_scan sh u hsyn (remove_via_none_missing _ _ _ halias hget)]
            rw [remove_eq_scan sh u hsyn (remove_via_none_missing _ _ _ halias hget)] at herr
            cases hflag : (removeScan sh.collection (strLower u)).2 with
            | true =>
              exfalso
              rw [hflag] at herr
              simp at herr
            | false =>
              show ({ sh with collection := (removeScan sh.collection (strLower u)).1 } : Shortener) = sh
              rw [removeScan_fst_of_flag_false _ _ hflag]
        | none =>
          rw [remove_eq_scan sh u hsyn (remove_via_none_noalias _ _ halias)]
          rw [remove_eq_scan sh u hsyn (remove_via_none_noalias _ _ halias)] at herr
          cases hflag : (removeScan sh.collection (strLower u)).2 with
          | true =>
            exfalso
            rw [hflag] at herr
            simp at herr
          | false =>
            show ({ sh with collection := (removeScan sh.collection (strLower u)).1 } : Shortener) = sh
            rw [removeScan_fst_of_flag_false _ _ hflag]
      · have horigf : isSameOrigin sh.baseUrl u = false := by
          cases h2 : isSameOrigin sh.baseUrl u
          · rfl
          · exact absurd h2 horig
        rw [remove_eq_scan sh u hsyn (remove_via_none_notOrigin _ _ horigf)]
        rw [remove_eq_scan sh u hsyn (remove_via_none_notOrigin _ _ horigf)] at herr
        cases hflag : (removeScan sh.collection (strLower u)).2 with
        | true =>
          exfalso
          rw [hflag] at herr
          simp at herr
        | false =>
          show ({ sh with collection := (removeScan sh.collection (strLower u)).1 } : Shortener) = sh
          rw [removeScan_fst_of_flag_false _ _ hflag]

/-- C2 fails on the code: the `DOMAIN` failure of `add` and the
`_notFound()` failure carry messages that do not begin with
`"<code>: "`, although the class's own doc comment (and the spec)
require that prefix.  Evaluated at domain `short.ly` and input
`http://short.ly/x`. -/
theorem error_message_prefix_bug :
    (add (initShortener (lit "short.ly")) (lit "abc1234") (lit "http://short.ly/x")).1.error =
      some { code := lit "DOMAIN",
             message := lit "longUrl domain is equal to SHORTENER_DOMAIN" } ∧
    List.isPrefixOf (lit "DOMAIN: ")
      (lit "longUrl domain is equal to SHORTENER_DOMAIN") = false ∧
    notFoundRes.error =
      some { code := lit "NOT_FOUND",
             message := lit "url was never registered for this service" } ∧
    List.isPrefixOf (lit "NOT_FOUND: ")
      (lit "url was never registered for this service") = false := by
  refine ⟨?_, by decide, rfl, by decide⟩
  decide

/-- Under the invariant, the long-URL scan never matches a same-origin
input: stored long URLs are never same-origin. -/
theorem lastMatch_none_sameOrigin (sh : Shortener) (u : Str) (hwf : WF sh)
    (horig : isSameOrigin sh.baseUrl u = true) :
    lastMatch sh.collection (strLower u) = none := by
  apply lastMatch_none_of
  intro p hp he
  have h2 := (hwf.2.2 p hp).2.2
  have h3 := isSameOrigin_true_elim _ _ horig
  rw [← he] at h3
  exact h2 h3

/-- C5: on a syntactically valid input, `query` fails with `DOMAIN` when
the lowercased authority is not the configured domain; otherwise, with
the fourth `/`-delimited segment as the alias, it fails with `NOT_FOUND`
when no record exists at that alias or the record is inactive, and on an
active record it returns the stored case-folded long URL and increments
that record's hit count by one, leaving the rest of the store
unchanged. -/
theorem query_contract (sh : Shortener) (u : Str) (hwf : WF sh)
    (hsyn : urlSyntaxError u = none) :
    (isSameOrigin sh.baseUrl u = false →
       query sh u = (queryDomainErr, sh)) ∧
    (isSameOrigin sh.baseUrl u = true →
       ((match (jsSplit '/' u).get? 3 with
         | some k => mapGet sh.collection k
         | none => none) = none →
          query sh u = (queryNotFound u, sh)) ∧
       (∀ k r, (jsSplit '/' u).get? 3 = some k →
          mapGet sh.collection k = some r → r.active = false →
          query sh u = (queryNotFound u, sh)) ∧
       (∀ k r, (jsSplit '/' u).get? 3 = some k →
          mapGet sh.collection k = some r → r.active = true →
          (query sh u).1 = { value := some (JsValue.str r.longUrl), error := none } ∧
          mapGet (query sh u).2.collection k = some { r with count := r.count + 1 } ∧
          ∀ k2, k2 ≠ k → mapGet (query sh u).2.collection k2 = mapGet sh.collection k2)) := by
  refine ⟨fun horig => query_eq_domain sh u hsyn horig, fun horig => ⟨?_, ?_, ?_⟩⟩
  · intro hmiss
    cases halias : (jsSplit '/' u).get? 3 with
    | none => exact query_eq_noalias sh u hsyn horig halias
    | some k =>
      rw [halias] at hmiss
      simp at hmiss
      exact query_eq_missing sh u k hsyn horig halias hmiss
  · intro k r halias hget hact
    have hcondb : (!r.longUrl.isEmpty && r.active) = false := by
      simp [hact]
    exact query_eq_inactive sh u k r hsyn horig halias hget hcondb
  · intro k r halias hget hact
    have hne : r.longUrl ≠ [] := (hwf.2.2 (k, r) (mem_of_mapGet _ _ _ hget)).2.1
    rw [query_eq_hit sh u k r hsyn horig halias hget hne hact]
    refine ⟨rfl, ?_, ?_⟩
    · show mapGet (mapSet sh.collection k { r with count := r.count + 1 }) k = _
      rw [mapGet_mapSet_self]
    · intro k2 hk2
      show mapGet (mapSet sh.collection k { r with count := r.count + 1 }) k2 = _
      rw [mapGet_mapSet_ne _ _ _ _ hk2]

/-- `WF`, `GoodDomain` and `GoodToken` stated in their unfolded,
decidable forms, for concrete witnesses. -/
theorem wf_of (sh : Shortener)
    (h : (sh.collection.map Prod.fst).Nodup ∧
         (sh.collection.map fun p => p.2.longUrl).Nodup ∧
         ∀ p ∈ sh.collection,
           (p.1.contains '/' = false ∧ strLower p.1 = p.1) ∧ p.2.longUrl ≠ [] ∧
           (jsSplit '/' p.2.longUrl).get? 2 ≠ some sh.baseUrl) : WF sh := h

theorem goodDomain_of (d : Str)
    (h : d ≠ [] ∧ d.contains '.' = true ∧ d.contains '/' = false ∧ strLower d = d) :
    GoodDomain d := h

theorem goodToken_of (t : Str)
    (h : t.contains '/' = false ∧ strLower t = t) : GoodToken t := h

/-- Witness for C5 at a concrete store: domain `short.ly`, one active
record at alias `abc1234`, queried with `http://short.ly/abc1234`
returns the stored long URL and bumps the hit count. -/
theorem query_contract_witness :
    (query ⟨lit "short.ly", [(lit "abc1234",
        { longUrl := lit "http://example.com/a", count := 0, active := true })]⟩
      (lit "http://short.ly/abc1234")).1 =
      { value := some (JsValue.str (lit "http://example.com/a")), error := none } := by
  have h := (query_contract
    ⟨lit "short.ly", [(lit "abc1234",
      { longUrl := lit "http://example.com/a", count := 0, active := true })]⟩
    (lit "http://short.ly/abc1234") (wf_of _ (by decide)) (by decide)).2 (by decide)
  exact (h.2.2 (lit "abc1234")
    { longUrl := lit "http://example.com/a", count := 0, active := true }
    (by decide) (by decide) (by decide)).1

/-- C7: on a syntactically valid input, `count` looks up by extracted
alias when the input is same-origin and otherwise scans for a
case-folded long-URL match; a found record's hit count is returned
whether or not it is active; with no match in either mode the result is
`NOT_FOUND`; and `count` never returns a `DOMAIN` error. -/
theorem count_contract (sh : Shortener) (u : Str) (hwf : WF sh) :
    (∀ k r, urlSyntaxError u = none → isSameOrigin sh.baseUrl u = true →
       (jsSplit '/' u).get? 3 = some k → mapGet sh.collection k = some r →
       count sh u = ({ value := some (JsValue.num r.count) }, sh)) ∧
    (∀ r, urlSyntaxError u = none → isSameOrigin sh.baseUrl u = false →
       lastMatch sh.collection (strLower u) = some r →
       count sh u = ({ value := some (JsValue.num r.count) }, sh)) ∧
    (urlSyntaxError u = none → isSameOrigin sh.baseUrl u = false →
       lastMatch sh.collection (strLower u) = none →
       count sh u = (notFoundRes, sh)) ∧
    (urlSyntaxError u = none → isSameOrigin sh.baseUrl u = true →
       (match (jsSplit '/' u).get? 3 with
        | some k => mapGet sh.collection k
        | none => none) = none →
       count sh u = (notFoundRes, sh)) ∧
    errCode (count sh u).1 ≠ some (lit "DOMAIN") := by
  refine ⟨?_, ?_, ?_, ?_, ?_⟩
  · intro k r hsyn horig halias hget
    exact count_eq_aliasHit sh u k r hsyn horig halias hget
  · intro r hsyn horig hlast
    rw [count_eq_scan sh u hsyn (count_via_none_notOrigin sh u horig), hlast]
  · intro hsyn horig hlast
    rw [count_eq_scan sh u hsyn (count_via_none_notOrigin sh u horig), hlast]
  · intro hsyn horig hmiss
    have hlast : lastMatch sh.collection (strLower u) = none :=
      lastMatch_none_sameOrigin sh u hwf horig
    cases halias : (jsSplit '/' u).get? 3 with
    | none =>
      rw [count_eq_scan sh u hsyn (count_via_none_noalias sh u halias), hlast]
    | some k =>
      rw [halias] at hmiss
      simp at hmiss
      rw [count_eq_scan sh u hsyn (count_via_none_missing sh u k halias hmiss), hlast]
  · cases hsyn : urlSyntaxError u with
    | some e =>
      rw [count_eq_badUrl sh u e hsyn]
      have he := (urlSyntaxError_some_inv u e hsyn).1
      rw [he]
      intro hcontra
      have : lit "URL_SYNTAX" = lit "DOMAIN" := Option.some.inj hcontra
      exact absurd this (by decide)
    | none =>
      rcases count_error_of_valid sh u hsyn with h | h
      · simp [errCode, h]
      · rw [h]
        intro hcontra
        have : lit "NOT_FOUND" = lit "DOMAIN" := Option.some.inj hcontra
        exact absurd this (by decide)

/-- Witness for C7 at a concrete store: one inactive record whose hit
count is still returned through both forms of the URL. -/
theorem count_contract_witness :
    count ⟨lit "short.ly", [(lit "abc1234",
        { longUrl := lit "http://example.com/a", count := 5, active := false })]⟩
      (lit "http://short.ly/abc1234") =
      ({ value := some (JsValue.num 5) },
       ⟨lit "short.ly", [(lit "abc1234",
         { longUrl := lit "http://example.com/a", count := 5, active := false })]⟩) := by
  exact (count_contract
    ⟨lit "short.ly", [(lit "abc1234",
      { longUrl := lit "http://example.com/a", count := 5, active := false })]⟩
    (lit "http://short.ly/abc1234") (wf_of _ (by decide))).1
    (lit "abc1234")
    { longUrl := lit "http://example.com/a", count := 5, active := false }
    (by decide) (by decide) (by decide) (by decide)

/-- ASCII case folding maps no character onto `'/'` except `'/'` itself. -/
theorem toLower_eq_slash (c : Char) : Char.toLower c = '/' ↔ c = '/' := by
  constructor
  · intro h
    simp only [Char.toLower] at h
    split at h
    · exfalso
      rename_i hc
      obtain ⟨h1, h2⟩ := hc
      interval_cases hn : c.toNat
      all_goals exact absurd h (by decide)
    · exact h
  · intro h
    rw [h]
    decide

theorem jsSplit_cons_ne_length (c x : Char) (s : Str) (hx : x ≠ c) :
    (jsSplit c (x :: s)).length = (jsSplit c s).length := by
  rw [jsSplit_cons_ne c x s hx]
  cases h : jsSplit c s with
  | nil => exact absurd h (jsSplit_ne_nil c s)
  | cons y ys => simp [h]

/-- Case folding does not move the `/` separators, so it does not change
the number of `/`-delimited segments. -/
theorem jsSplit_length_strLower (s : Str) :
    (jsSplit '/' (strLower s)).length = (jsSplit '/' s).length := by
  induction s with
  | nil => rfl
  | cons x xs ih =>
    rw [strLower_cons]
    by_cases hx : x = '/'
    · subst hx
      rw [show Char.toLower '/' = '/' from by decide, jsSplit_cons_self, jsSplit_cons_self]
      simp [ih]
    · have hlx : Char.toLower x ≠ '/' := fun he => hx ((toLower_eq_slash x).mp he)
      rw [jsSplit_cons_ne_length _ _ _ hlx, jsSplit_cons_ne_length _ _ _ hx, ih]

/-- Under the invariant, the long-URL scan of `remove` never matches a
same-origin input. -/
theorem removeScan_flag_false_sameOrigin (sh : Shortener) (u : Str) (hwf : WF sh)
    (horig : isSameOrigin sh.baseUrl u = true) :
    (removeScan sh.collection (strLower u)).2 = false := by
  cases hf : (removeScan sh.collection (strLower u)).2 with
  | false => rfl
  | true =>
    exfalso
    rw [removeScan_snd_eq] at hf
    rcases List.any_eq_true.mp hf with ⟨p, hp, hpe⟩
    have he : p.2.longUrl = strLower u := by simpa using hpe
    have h2 := (hwf.2.2 p hp).2.2
    have h3 := isSameOrigin_true_elim _ _ horig
    rw [← he] at h3
    exact h2 h3

/-- C10: the prefix test of `_urlSyntaxError` guarantees the split has
at least three segments before `urlParts[2]` is read, and the three
lookup operations on a same-origin URL with no fourth segment resolve to
`NOT_FOUND` rather than failing. -/
theorem no_out_of_bounds (sh : Shortener) (u : Str) (hwf : WF sh) :
    (∀ url : Str, (List.isPrefixOf (lit "http://") (strLower url) = true ∨
        List.isPrefixOf (lit "https://") (strLower url) = true) →
       3 ≤ (jsSplit '/' url).length) ∧
    (urlSyntaxError u = none → isSameOrigin sh.baseUrl u = true →
       (jsSplit '/' u).get? 3 = none →
       query sh u = (queryNotFound u, sh) ∧
       count sh u = (notFoundRes, sh) ∧
       remove sh u = (notFoundRes, sh)) := by
  constructor
  · intro url hp
    rw [← jsSplit_length_strLower]
    have hlen : ∀ t : Str, 3 ≤ (lit "http:" :: ([] : Str) :: jsSplit '/' t).length := by
      intro t
      have := List.length_pos.mpr (jsSplit_ne_nil '/' t)
      simp
      omega
    rcases hp with h1 | h1
    · obtain ⟨t, ht⟩ := List.isPrefixOf_iff_prefix.mp h1
      have hdec : strLower url = lit "http:" ++ '/' :: '/' :: t := by
        rw [← ht]
        rfl
      rw [hdec, jsSplit_append_cons _ _ _ (by decide), jsSplit_cons_self]
      exact hlen t
    · obtain ⟨t, ht⟩ := List.isPrefixOf_iff_prefix.mp h1
      have hdec : strLower url = lit "https:" ++ '/' :: '/' :: t := by
        rw [← ht]
        rfl
      rw [hdec, jsSplit_append_cons _ _ _ (by decide), jsSplit_cons_self]
      have := List.length_pos.mpr (jsSplit_ne_nil '/' t)
      simp
      omega
  · intro hsyn horig halias
    refine ⟨query_eq_noalias sh u hsyn horig halias, ?_, ?_⟩
    · rw [count_eq_scan sh u hsyn (count_via_none_noalias sh u halias),
        lastMatch_none_sameOrigin sh u hwf horig]
    · rw [remove_eq_scan sh u hsyn (remove_via_none_noalias sh u halias),
        removeScan_flag_false_sameOrigin sh u hwf horig,
        removeScan_fst_of_flag_false _ _ (removeScan_flag_false_sameOrigin sh u hwf horig)]
      simp

/-- Witness for C10: domain `short.ly`, one record, operations applied
to `http://short.ly` (no alias segment). -/
theorem no_out_of_bounds_witness :
    query ⟨lit "short.ly", [(lit "abc1234",
        { longUrl := lit "http://example.com/a", count := 0, active := true })]⟩
      (lit "http://short.ly") =
      (queryNotFound (lit "http://short.ly"),
       ⟨lit "short.ly", [(lit "abc1234",
         { longUrl := lit "http://example.com/a", count := 0, active := true })]⟩) ∧
    count ⟨lit "short.ly", [(lit "abc1234",
        { longUrl := lit "http://example.com/a", count := 0, active := true })]⟩
      (lit "http://short.ly") =
      (notFoundRes,
       ⟨lit "short.ly", [(lit "abc1234",
         { longUrl := lit "http://example.com/a", count := 0, active := true })]⟩) ∧
    remove ⟨lit "short.ly", [(lit "abc1234",
        { longUrl := lit "http://example.com/a", count := 0, active := true })]⟩
      (lit "http://short.ly") =
      (notFoundRes,
       ⟨lit "short.ly", [(lit "abc1234",
         { longUrl := lit "http://example.com/a", count := 0, active := true })]⟩) := by
  exact (no_out_of_bounds
    ⟨lit "short.ly", [(lit "abc1234",
      { longUrl := lit "http://example.com/a", count := 0, active := true })]⟩
    (lit "http://short.ly") (wf_of _ (by decide))).2 (by decide) (by decide) (by decide)

theorem removeScan_flag_false_of (st : Store) (l : Str)
    (h : ∀ p ∈ st, p.2.longUrl ≠ l) : (removeScan st l).2 = false := by
  rw [removeScan_snd_eq]
  cases hf : st.any (fun p => p.2.longUrl == l) with
  | false => rfl
  | true =>
    exfalso
    rcases List.any_eq_true.mp hf with ⟨p, hp, hpe⟩
    exact h p hp (by simpa using hpe)

/-- C6: `remove` deactivates the matched record and returns the empty
object — by alias when the input is same-origin (even when the record is
already inactive), by case-folded long URL otherwise; it returns
`NOT_FOUND` when no record matches in either mode (in particular on a
same-origin input whose alias is not a key of the collection); and after
a successful remove of a short URL, `query` on it fails with `NOT_FOUND`
until the same long URL is added again, which restores resolvability at
the same alias. -/
theorem remove_contract (sh : Shortener) (u : Str) (hwf : WF sh) :
    (∀ k r, urlSyntaxError u = none → isSameOrigin sh.baseUrl u = true →
       (jsSplit '/' u).get? 3 = some k → mapGet sh.collection k = some r →
       remove sh u =
         (({} : JsResult),
          { sh with collection := mapSet sh.collection k { r with active := false } })) ∧
    (∀ k r, urlSyntaxError u = none → isSameOrigin sh.baseUrl u = false →
       (k, r) ∈ sh.collection → r.longUrl = strLower u →
       (remove sh u).1 = ({} : JsResult) ∧
       mapGet (remove sh u).2.collection k = some { r with active := false }) ∧
    (urlSyntaxError u = none → isSameOrigin sh.baseUrl u = false →
       (∀ p ∈ sh.collection, p.2.longUrl ≠ strLower u) →
       remove sh u = (notFoundRes, sh)) ∧
    (urlSyntaxError u = none → isSameOrigin sh.baseUrl u = true →
       (match (jsSplit '/' u).get? 3 with
        | some k => mapGet sh.collection k
        | none => none) = none →
       remove sh u = (notFoundRes, sh)) ∧
    (∀ k r hash u2, urlSyntaxError u = none → isSameOrigin sh.baseUrl u = true →
       (jsSplit '/' u).get? 3 = some k → mapGet sh.collection k = some r →
       urlSyntaxError u2 = none → isSameOrigin sh.baseUrl u2 = false →
       strLower u2 = r.longUrl →
       query (remove sh u).2 u = (queryNotFound u, (remove sh u).2) ∧
       (query (add (remove sh u).2 hash u2).2 u).1 =
         { value := some (JsValue.str r.longUrl), error := none }) := by
  refine ⟨?_, ?_, ?_, ?_, ?_⟩
  · intro k r hsyn horig halias hget
    exact remove_eq_alias sh u k r hsyn horig halias hget
  · intro k r hsyn horig hmem hlong
    have hflag : (removeScan sh.collection (strLower u)).2 = true :=
      removeScan_flag_true_of_mem _ _ (k, r) hmem hlong
    rw [remove_eq_scan sh u hsyn (remove_via_none_notOrigin sh u horig), hflag]
    refine ⟨by simp, ?_⟩
    show mapGet (removeScan sh.collection (strLower u)).1 k = _
    rw [removeScan_fst_eq, mapGet_mapRecord, mapGet_of_mem _ _ _ hwf.1 hmem]
    simp [actFalse, hlong]
  · intro hsyn horig hnone
    have hflag : (removeScan sh.collection (strLower u)).2 = false :=
      removeScan_flag_false_of _ _ hnone
    rw [remove_eq_scan sh u hsyn (remove_via_none_notOrigin sh u horig), hflag,
      removeScan_fst_of_flag_false _ _ hflag]
    simp
  · intro hsyn horig hmiss
    have hflag : (removeScan sh.collection (strLower u)).2 = false :=
      removeScan_flag_false_sameOrigin sh u hwf horig
    cases halias : (jsSplit '/' u).get? 3 with
    | none =>
      rw [remove_eq_scan sh u hsyn (remove_via_none_noalias sh u halias), hflag,
        removeScan_fst_of_flag_false _ _ hflag]
      simp
    | some k =>
      rw [halias] at hmiss
      simp at hmiss
      rw [remove_eq_scan sh u hsyn (remove_via_none_missing sh u k halias hmiss), hflag,
        removeScan_fst_of_flag_false _ _ hflag]
      simp
  · intro k r hash u2 hsyn horig halias hget hsyn2 horig2 hlow2
    have hrem := remove_eq_alias sh u k r hsyn horig halias hget
    rw [hrem]
    have hwf1 : WF { sh with collection := mapSet sh.collection k { r with active := false } } :=
      wf_mapSet_same sh k r { r with active := false } hwf hget rfl
    have hget1 : mapGet (mapSet sh.collection k { r with active := false }) k =
        some { r with active := false } := mapGet_mapSet_self _ _ _
    have hq1 : query { sh with collection := mapSet sh.collection k { r with active := false } } u =
        (queryNotFound u,
         { sh with collection := mapSet sh.collection k { r with active := false } }) := by
      exact query_eq_inactive _ u k { r with active := false } hsyn horig halias hget1 (by simp)
    refine ⟨hq1, ?_⟩
    have hscan : (addScan (mapSet sh.collection k { r with active := false })
        (strLower u2)).2 = some k := by
      apply addScan_snd_some_of_mem _ _ k { r with active := false } hwf1.2.1
        (mem_of_mapGet _ _ _ hget1)
      show r.longUrl = strLower u2
      rw [hlow2]
    have hne : r.longUrl ≠ [] := (hwf.2.2 (k, r) (mem_of_mapGet _ _ _ hget)).2.1
    have hget2 : mapGet (addScan (mapSet sh.collection k { r with active := false })
        (strLower u2)).1 k = some { r with active := true } := by
      rw [addScan_fst_eq, mapGet_mapRecord, hget1]
      simp only [Option.map_some']
      have : actTrue (strLower u2) { r with active := false } = { r with active := true } := by
        unfold actTrue
        rw [if_pos (by rw [hlow2])]
      rw [this]
    by_cases hk : k = []
    · subst hk
      have hadd := add_eq_reuseEmpty
        { sh with collection := mapSet sh.collection [] { r with active := false } }
        hash u2 hsyn2 horig2 hscan
      rw [hadd]
      by_cases hh0 : hash = []
      · subst hh0
        have hget3 : mapGet (mapSet (addScan (mapSet sh.collection [] { r with active := false })
              (strLower u2)).1 [] { longUrl := strLower u2, count := 0, active := true }) [] =
            some { longUrl := strLower u2, count := 0, active := true } :=
          mapGet_mapSet_self _ _ _
        show (query { baseUrl := sh.baseUrl,
                      collection := mapSet (addScan (mapSet sh.collection [] { r with active := false })
                        (strLower u2)).1 [] { longUrl := strLower u2, count := 0, active := true } } u).1 =
          { value := some (JsValue.str r.longUrl), error := none }
        rw [query_eq_hit
          { baseUrl := sh.baseUrl,
            collection := mapSet (addScan (mapSet sh.collection [] { r with active := false })
              (strLower u2)).1 [] { longUrl := strLower u2, count := 0, active := true } }
          u [] { longUrl := strLower u2, count := 0, active := true }
          hsyn horig halias hget3 (by rw [hlow2]; exact hne) rfl]
        show ({ value := some (JsValue.str (strLower u2)), error := none } : JsResult) = _
        rw [hlow2]
      · have hget3 : mapGet (mapSet (addScan (mapSet sh.collection [] { r with active := false })
              (strLower u2)).1 hash { longUrl := strLower u2, count := 0, active := true }) [] =
            some { r with active := true } := by
          rw [mapGet_mapSet_ne _ _ _ _ (fun he => hh0 he.symm), hget2]
        show (query { baseUrl := sh.baseUrl,
                      collection := mapSet (addScan (mapSet sh.collection [] { r with active := false })
                        (strLower u2)).1 hash { longUrl := strLower u2, count := 0, active := true } } u).1 =
          { value := some (JsValue.str r.longUrl), error := none }
        rw [query_eq_hit
          { baseUrl := sh.baseUrl,
            collection := mapSet (addScan (mapSet sh.collection [] { r with active := false })
              (strLower u2)).1 hash { longUrl := strLower u2, count := 0, active := true } }
          u [] { r with active := true }
          hsyn horig halias hget3 hne rfl]
    · have hadd := add_eq_reuse
        { sh with collection := mapSet sh.collection k { r with active := false } }
        hash u2 k hsyn2 horig2 hscan hk
      rw [hadd]
      show (query { baseUrl := sh.baseUrl,
                    collection := (addScan (mapSet sh.collection k { r with active := false })
                      (strLower u2)).1 } u).1 =
        { value := some (JsValue.str r.longUrl), error := none }
      rw [query_eq_hit
        { baseUrl := sh.baseUrl,
          collection := (addScan (mapSet sh.collection k { r with active := false })
            (strLower u2)).1 }
        u k { r with active := true } hsyn horig halias hget2 hne rfl]

/-- Witness for C6's restore scenario at a concrete store: remove the
short URL, observe `NOT_FOUND`, re-add the long URL (in different case),
and query resolves again at the same alias. -/
theorem remove_contract_witness :
    (query (remove ⟨lit "short.ly", [(lit "abc1234",
          { longUrl := lit "http://example.com/a", count := 3, active := true })]⟩
        (lit "http://short.ly/abc1234")).2 (lit "http://short.ly/abc1234") =
      (queryNotFound (lit "http://short.ly/abc1234"),
       (remove ⟨lit "short.ly", [(lit "abc1234",
          { longUrl := lit "http://example.com/a", count := 3, active := true })]⟩
        (lit "http://short.ly/abc1234")).2)) ∧
    (query (add (remove ⟨lit "short.ly", [(lit "abc1234",
          { longUrl := lit "http://example.com/a", count := 3, active := true })]⟩
        (lit "http://short.ly/abc1234")).2 (lit "zz9") (lit "HTTP://Example.com/A")).2
      (lit "http://short.ly/abc1234")).1 =
      { value := some (JsValue.str (lit "http://example.com/a")), error := none } := by
  exact (remove_contract
    ⟨lit "short.ly", [(lit "abc1234",
      { longUrl := lit "http://example.com/a", count := 3, active := true })]⟩
    (lit "http://short.ly/abc1234") (wf_of _ (by decide))).2.2.2.2
    (lit "abc1234")
    { longUrl := lit "http://example.com/a", count := 3, active := true }
    (lit "zz9") (lit "HTTP://Example.com/A")
    (by decide) (by decide) (by decide) (by decide) (by decide) (by decide) (by decide)

theorem strLower_ne_nil_of_valid (u : Str) (hsyn : urlSyntaxError u = none) :
    strLower u ≠ [] := by
  obtain ⟨sch, t, hor, -, -, hdec⟩ := valid_scheme u hsyn
  rw [hdec]
  intro heq
  have h2 := (List.append_eq_nil.mp heq).2
  simp at h2

/-- C1: for every valid long URL whose authority is not the configured
domain, `add` returns a short URL, and `query` on that short URL in the
resulting store succeeds and returns the full lowercasing of the long
URL. -/
theorem add_then_query_roundtrip (sh : Shortener) (u hash : Str)
    (hwf : WF sh) (hdom : GoodDomain sh.baseUrl) (hh : GoodToken hash)
    (hsyn : urlSyntaxError u = none) (horig : isSameOrigin sh.baseUrl u = false) :
    ∃ v : Str, (add sh hash u).1 = { value := some (JsValue.str v), error := none } ∧
      (query (add sh hash u).2 v).1 =
        { value := some (JsValue.str (strLower u)), error := none } := by
  obtain ⟨sch, t, hor, hcs, hls, hdec, hsplit⟩ := valid_split u hsyn
  have hscheme : (jsSplit '/' (strLower u)).getD 0 [] = sch := by
    rw [hsplit]
    rfl
  have hne : strLower u ≠ [] := strLower_ne_nil_of_valid u hsyn
  cases hscan : (addScan sh.collection (strLower u)).2 with
  | some k =>
    obtain ⟨r0, hmem0, hl0⟩ := addScan_snd_some _ _ _ hscan
    by_cases hk : k = []
    · subst hk
      obtain ⟨hpsplit, hplow, hpsyn, hporig⟩ := shortUrl_parts sch sh.baseUrl hash hor hdom hh
      have hget1 : mapGet (mapSet (addScan sh.collection (strLower u)).1 hash { longUrl := strLower u, count := 0, active := true }) hash =
          some { longUrl := strLower u, count := 0, active := true } :=
        mapGet_mapSet_self _ _ _
      refine ⟨sch ++ lit "//" ++ sh.baseUrl ++ lit "/" ++ hash, ?_, ?_⟩
      · rw [add_eq_reuseEmpty sh hash u hsyn horig hscan, hscheme]
      · rw [add_eq_reuseEmpty sh hash u hsyn horig hscan]
        show (query { baseUrl := sh.baseUrl,
                      collection := mapSet (addScan sh.collection (strLower u)).1 hash { longUrl := strLower u, count := 0, active := true } }
                (sch ++ lit "//" ++ sh.baseUrl ++ lit "/" ++ hash)).1 =
          { value := some (JsValue.str (strLower u)), error := none }
        rw [query_eq_hit
          { baseUrl := sh.baseUrl,
            collection := mapSet (addScan sh.collection (strLower u)).1 hash { longUrl := strLower u, count := 0, active := true } }
          (sch ++ lit "//" ++ sh.baseUrl ++ lit "/" ++ hash) hash
          { longUrl := strLower u, count := 0, active := true }
          hpsyn hporig (by rw [hpsplit]; rfl) hget1 hne rfl]
    · have htok : GoodToken k := (hwf.2.2 (k, r0) hmem0).1
      obtain ⟨hpsplit, hplow, hpsyn, hporig⟩ := shortUrl_parts sch sh.baseUrl k hor hdom htok
      have hget1 : mapGet (addScan sh.collection (strLower u)).1 k =
          some { r0 with active := true } := by
        rw [addScan_fst_eq, mapGet_mapRecord, mapGet_of_mem _ _ _ hwf.1 hmem0]
        simp only [Option.map_some']
        unfold actTrue
        rw [if_pos hl0]
      refine ⟨sch ++ lit "//" ++ sh.baseUrl ++ lit "/" ++ k, ?_, ?_⟩
      · rw [add_eq_reuse sh hash u k hsyn horig hscan hk, hscheme]
      · rw [add_eq_reuse sh hash u k hsyn horig hscan hk]
        show (query { baseUrl := sh.baseUrl,
                      collection := (addScan sh.collection (strLower u)).1 }
                (sch ++ lit "//" ++ sh.baseUrl ++ lit "/" ++ k)).1 =
          { value := some (JsValue.str (strLower u)), error := none }
        rw [query_eq_hit
          { baseUrl := sh.baseUrl, collection := (addScan sh.collection (strLower u)).1 }
          (sch ++ lit "//" ++ sh.baseUrl ++ lit "/" ++ k) k { r0 with active := true }
          hpsyn hporig (by rw [hpsplit]; rfl) hget1 (by rw [show ({ r0 with active := true } : Record).longUrl = r0.longUrl from rfl, hl0]; exact hne) rfl]
        rw [show ({ r0 with active := true } : Record).longUrl = r0.longUrl from rfl, hl0]
  | none =>
    obtain ⟨hpsplit, hplow, hpsyn, hporig⟩ := shortUrl_parts sch sh.baseUrl hash hor hdom hh
    have hget1 : mapGet (mapSet sh.collection hash { longUrl := strLower u, count := 0, active := true }) hash =
        some { longUrl := strLower u, count := 0, active := true } :=
      mapGet_mapSet_self _ _ _
    refine ⟨sch ++ lit "//" ++ sh.baseUrl ++ lit "/" ++ hash, ?_, ?_⟩
    · rw [add_eq_fresh sh hash u hsyn horig hscan, hscheme]
    · rw [add_eq_fresh sh hash u hsyn horig hscan]
      show (query { baseUrl := sh.baseUrl,
                    collection :=
                      mapSet sh.collection hash { longUrl := strLower u, count := 0, active := true } }
              (sch ++ lit "//" ++ sh.baseUrl ++ lit "/" ++ hash)).1 =
        { value := some (JsValue.str (strLower u)), error := none }
      rw [query_eq_hit
        { baseUrl := sh.baseUrl,
          collection :=
            mapSet sh.collection hash { longUrl := strLower u, count := 0, active := true } }
        (sch ++ lit "//" ++ sh.baseUrl ++ lit "/" ++ hash) hash
        { longUrl := strLower u, count := 0, active := true }
        hpsyn hporig (by rw [hpsplit]; rfl) hget1 hne rfl]

/-- Witness for C1: empty store with domain `short.ly`, adding
`HTTP://Example.com/A` with token `zz9` and querying the returned short
URL. -/
theorem add_then_query_roundtrip_witness :
    ∃ v : Str,
      (add ⟨lit "short.ly", []⟩ (lit "zz9") (lit "HTTP://Example.com/A")).1 =
        { value := some (JsValue.str v), error := none } ∧
      (query (add ⟨lit "short.ly", []⟩ (lit "zz9") (lit "HTTP://Example.com/A")).2 v).1 =
        { value := some (JsValue.str (strLower (lit "HTTP://Example.com/A"))),
          error := none } := by
  exact add_then_query_roundtrip ⟨lit "short.ly", []⟩
    (lit "HTTP://Example.com/A") (lit "zz9") (wf_of _ (by decide))
    (goodDomain_of _ (by decide)) (goodToken_of _ (by decide)) (by decide) (by decide)

/-- C3 fails on the code: `if (exists)` is a JS truthiness test, and the
empty-string alias — which `_generateHash()` can return, for instance
when `Math.random()` yields `0`, since `(0).toString(36).slice(5, 12)`
is `""` — is falsy.  Re-adding a long URL stored under the empty alias
therefore inserts a second record under a fresh alias instead of reusing
the existing one.  Concretely, from the empty store with domain
`short.ly`, adding `http://example.com/a` under the empty token and then
adding the same URL again under token `zz9` returns two different short
URLs (`http://short.ly/` then `http://short.ly/zz9`) and leaves two
records with the same case-folded long URL, breaking the at-most-one
record-per-long-URL invariant; the offending state is reachable with
tokens `_generateHash` can produce. -/
theorem add_duplicate_on_empty_alias :
    GoodToken [] ∧
    (add (initShortener (lit "short.ly")) [] (lit "http://example.com/a")).1.value =
      some (JsValue.str (lit "http://short.ly/")) ∧
    (add (add (initShortener (lit "short.ly")) [] (lit "http://example.com/a")).2
        (lit "zz9") (lit "http://example.com/a")).1.value =
      some (JsValue.str (lit "http://short.ly/zz9")) ∧
    ((add (add (initShortener (lit "short.ly")) [] (lit "http://example.com/a")).2
        (lit "zz9") (lit "http://example.com/a")).2.collection.countP
      fun p => p.2.longUrl == strLower (lit "http://example.com/a")) = 2 ∧
    ¬ (((add (add (initShortener (lit "short.ly")) [] (lit "http://example.com/a")).2
        (lit "zz9") (lit "http://example.com/a")).2.collection.map
          fun p => p.2.longUrl).Nodup) ∧
    Reachable (add (add (initShortener (lit "short.ly")) [] (lit "http://example.com/a")).2
        (lit "zz9") (lit "http://example.com/a")).2 := by
  refine ⟨goodToken_of [] (by decide), by decide, by decide, by decide, by decide, ?_⟩
  exact Reachable.addStep _ (lit "zz9") (lit "http://example.com/a")
    (goodToken_of _ (by decide))
    (Reachable.addStep _ [] (lit "http://example.com/a")
      (goodToken_of _ (by decide)) (Reachable.init (lit "short.ly")))

theorem mapSet_mapSet (st : Store) (k : Str) (r r2 : Record) :
    mapSet (mapSet st k r) k r2 = mapSet st k r2 := by
  induction st with
  | nil => simp [mapSet]
  | cons p rest ih =>
    obtain ⟨k0, v0⟩ := p
    by_cases hk : k0 = k
    · simp [mapSet, hk]
    · simp [mapSet, hk, ih]

/-- Querying the freshly written alias `m` times just raises its count
from `j` to `j + m`. -/
theorem iterQuery_mapSet (sh : Shortener) (hash lower sch : Str) (j m : Nat)
    (hsch : sch = lit "http:" ∨ sch = lit "https:")
    (hdom : GoodDomain sh.baseUrl) (hh : GoodToken hash)
    (hlne : lower ≠ []) :
    iterQuery m (sch ++ lit "//" ++ sh.baseUrl ++ lit "/" ++ hash)
      { sh with collection :=
          mapSet sh.collection hash { longUrl := lower, count := j, active := true } } =
      { sh with collection :=
          mapSet sh.collection hash { longUrl := lower, count := j + m, active := true } } := by
  induction m generalizing j with
  | zero => rfl
  | succ m ih =>
    obtain ⟨hpsplit, hplow, hpsyn, hporig⟩ := shortUrl_parts sch sh.baseUrl hash hsch hdom hh
    show iterQuery m (sch ++ lit "//" ++ sh.baseUrl ++ lit "/" ++ hash)
      (query { sh with
                 collection := mapSet sh.collection hash { longUrl := lower, count := j, active := true } }
        (sch ++ lit "//" ++ sh.baseUrl ++ lit "/" ++ hash)).2 = _
    rw [query_eq_hit
      { baseUrl := sh.baseUrl,
        collection :=
          mapSet sh.collection hash { longUrl := lower, count := j, active := true } }
      (sch ++ lit "//" ++ sh.baseUrl ++ lit "/" ++ hash) hash
      { longUrl := lower, count := j, active := true }
      hpsyn hporig (by rw [hpsplit]; rfl) (mapGet_mapSet_self _ _ _) hlne rfl]
    show iterQuery m (sch ++ lit "//" ++ sh.baseUrl ++ lit "/" ++ hash)
      { sh with
          collection := mapSet (mapSet sh.collection hash { longUrl := lower, count := j, active := true }) hash { longUrl := lower, count := j + 1, active := true } } = _
    rw [mapSet_mapSet, ih (j + 1)]
    rw [show j + 1 + m = j + (m + 1) from by omega]

/-- C4, amended: from a store not yet containing the long URL, `add`
creates its record with hit count `0`; each successful `query` on the
returned short URL increments the count by exactly one, so after `n`
queries `count` returns `n` on both forms of the URL; and the count
survives an intervening `remove` of the long URL followed by a
re-`add` — provided the alias generated at creation is non-empty.  The
amendment is needed: `_generateHash()` can return the empty string,
which `if (exists)` treats as falsy, and the re-`add` then overwrites
the record and resets the count to `0`
(`hitCount_reset_on_empty_alias`). -/
theorem hitCount_persistence (sh : Shortener) (u hash hash2 : Str) (n : Nat)
    (hwf : WF sh) (hdom : GoodDomain sh.baseUrl) (hh : GoodToken hash)
    (hnem : hash ≠ [])
    (hsyn : urlSyntaxError u = none) (horig : isSameOrigin sh.baseUrl u = false)
    (hfresh : ∀ p ∈ sh.collection, p.2.longUrl ≠ strLower u) :
    ∃ v : Str,
      (add sh hash u).1.value = some (JsValue.str v) ∧
      (∀ m : Nat, (query (iterQuery m v (add sh hash u).2) v).1.error = none) ∧
      (count (iterQuery n v (add sh hash u).2) v).1 =
        { value := some (JsValue.num n), error := none } ∧
      (count (iterQuery n v (add sh hash u).2) u).1 =
        { value := some (JsValue.num n), error := none } ∧
      (count (add (remove (iterQuery n v (add sh hash u).2) u).2 hash2 u).2 v).1 =
        { value := some (JsValue.num n), error := none } := by
  obtain ⟨sch, t, hor, hcs, hls, hdec, hsplit⟩ := valid_split u hsyn
  have hscheme : (jsSplit '/' (strLower u)).getD 0 [] = sch := by
    rw [hsplit]
    rfl
  have hlne : strLower u ≠ [] := strLower_ne_nil_of_valid u hsyn
  obtain ⟨hpsplit, hplow, hpsyn, hporig⟩ := shortUrl_parts sch sh.baseUrl hash hor hdom hh
  have hscan1 : (addScan sh.collection (strLower u)).2 = none :=
    addScan_snd_none_of _ _ hfresh
  have hadd1 := add_eq_fresh sh hash u hsyn horig hscan1
  refine ⟨sch ++ lit "//" ++ sh.baseUrl ++ lit "/" ++ hash, ?_, ?_, ?_, ?_, ?_⟩
  · rw [hadd1]
    show some (JsValue.str ((jsSplit '/' (strLower u)).getD 0 [] ++
      lit "//" ++ sh.baseUrl ++ lit "/" ++ hash)) = _
    rw [hscheme]
  · intro m
    rw [hadd1]
    show (query (iterQuery m (sch ++ lit "//" ++ sh.baseUrl ++ lit "/" ++ hash)
      { sh with collection :=
          mapSet sh.collection hash { longUrl := strLower u, count := 0, active := true } })
      (sch ++ lit "//" ++ sh.baseUrl ++ lit "/" ++ hash)).1.error = none
    rw [iterQuery_mapSet sh hash (strLower u) sch 0 m hor hdom hh hlne]
    rw [query_eq_hit
      { baseUrl := sh.baseUrl,
        collection :=
          mapSet sh.collection hash { longUrl := strLower u, count := 0 + m, active := true } }
      (sch ++ lit "//" ++ sh.baseUrl ++ lit "/" ++ hash) hash
      { longUrl := strLower u, count := 0 + m, active := true }
      hpsyn hporig (by rw [hpsplit]; rfl) (mapGet_mapSet_self _ _ _) hlne rfl]
  · rw [hadd1]
    show (count (iterQuery n (sch ++ lit "//" ++ sh.baseUrl ++ lit "/" ++ hash)
      { sh with collection :=
          mapSet sh.collection hash { longUrl := strLower u, count := 0, active := true } })
      (sch ++ lit "//" ++ sh.baseUrl ++ lit "/" ++ hash)).1 = _
    rw [iterQuery_mapSet sh hash (strLower u) sch 0 n hor hdom hh hlne]
    rw [count_eq_aliasHit
      { baseUrl := sh.baseUrl,
        collection :=
          mapSet sh.collection hash { longUrl := strLower u, count := 0 + n, active := true } }
      (sch ++ lit "//" ++ sh.baseUrl ++ lit "/" ++ hash) hash
      { longUrl := strLower u, count := 0 + n, active := true }
      hpsyn hporig (by rw [hpsplit]; rfl) (mapGet_mapSet_self _ _ _)]
    show ({ value := some (JsValue.num (0 + n)), error := none } : JsResult) = _
    rw [Nat.zero_add]
  · rw [hadd1]
    show (count (iterQuery n (sch ++ lit "//" ++ sh.baseUrl ++ lit "/" ++ hash)
      { sh with collection :=
          mapSet sh.collection hash { longUrl := strLower u, count := 0, active := true } }) u).1 = _
    rw [iterQuery_mapSet sh hash (strLower u) sch 0 n hor hdom hh hlne]
    have hlast : lastMatch (mapSet sh.collection hash { longUrl := strLower u, count := 0 + n, active := true }) (strLower u) =
        some { longUrl := strLower u, count := 0 + n, active := true } := by
      apply lastMatch_some_of_mem _ _ hash _
        (nodup_longUrls_mapSet _ _ _ hwf.2.1 hfresh)
        (mem_of_mapGet _ _ _ (mapGet_mapSet_self _ _ _)) rfl
    rw [count_eq_scan
      { baseUrl := sh.baseUrl,
        collection :=
          mapSet sh.collection hash { longUrl := strLower u, count := 0 + n, active := true } }
      u hsyn (count_via_none_notOrigin _ u horig)]
    rw [hlast]
    show ({ value := some (JsValue.num (0 + n)), error := none } : JsResult) = _
    rw [Nat.zero_add]
  · rw [hadd1]
    show (count (add (remove (iterQuery n (sch ++ lit "//" ++ sh.baseUrl ++ lit "/" ++ hash)
        { sh with collection :=
            mapSet sh.collection hash { longUrl := strLower u, count := 0, active := true } }) u).2 hash2 u).2
      (sch ++ lit "//" ++ sh.baseUrl ++ lit "/" ++ hash)).1 = _
    rw [iterQuery_mapSet sh hash (strLower u) sch 0 n hor hdom hh hlne]
    have hmemN := mem_of_mapGet _ _ _ (mapGet_mapSet_self sh.collection hash
      { longUrl := strLower u, count := 0 + n, active := true })
    have hflag : (removeScan (mapSet sh.collection hash { longUrl := strLower u, count := 0 + n, active := true }) (strLower u)).2 = true :=
      removeScan_flag_true_of_mem _ _ _ hmemN rfl
    rw [remove_eq_scan
      { baseUrl := sh.baseUrl,
        collection :=
          mapSet sh.collection hash { longUrl := strLower u, count := 0 + n, active := true } }
      u hsyn (remove_via_none_notOrigin _ u horig)]
    have hgetT : mapGet (removeScan (mapSet sh.collection hash { longUrl := strLower u, count := 0 + n, active := true }) (strLower u)).1 hash =
        some { longUrl := strLower u, count := 0 + n, active := false } := by
      rw [removeScan_fst_eq, mapGet_mapRecord, mapGet_mapSet_self]
      simp only [Option.map_some']
      unfold actFalse
      rw [if_pos rfl]
    have hndT : ((removeScan (mapSet sh.collection hash { longUrl := strLower u, count := 0 + n, active := true }) (strLower u)).1.map
          fun p => p.2.longUrl).Nodup := by
      rw [removeScan_fst_eq, longUrls_mapRecord _ _ (actFalse_longUrl _)]
      exact nodup_longUrls_mapSet _ _ _ hwf.2.1 hfresh
    have hscan3 : (addScan (removeScan (mapSet sh.collection hash { longUrl := strLower u, count := 0 + n, active := true }) (strLower u)).1
        (strLower u)).2 = some hash :=
      addScan_snd_some_of_mem _ _ hash _ hndT (mem_of_mapGet _ _ _ hgetT) rfl
    show (count (add { baseUrl := sh.baseUrl,
                       collection := (removeScan (mapSet sh.collection hash { longUrl := strLower u, count := 0 + n, active := true }) (strLower u)).1 }
        hash2 u).2 (sch ++ lit "//" ++ sh.baseUrl ++ lit "/" ++ hash)).1 = _
    rw [add_eq_reuse
      { baseUrl := sh.baseUrl,
        collection := (removeScan (mapSet sh.collection hash { longUrl := strLower u, count := 0 + n, active := true }) (strLower u)).1 }
      hash2 u hash hsyn horig hscan3 hnem]
    have hgetW : mapGet (addScan (removeScan (mapSet sh.collection hash { longUrl := strLower u, count := 0 + n, active := true }) (strLower u)).1
        (strLower u)).1 hash =
        some { longUrl := strLower u, count := 0 + n, active := true } := by
      rw [addScan_fst_eq, mapGet_mapRecord, hgetT]
      simp only [Option.map_some']
      unfold actTrue
      rw [if_pos rfl]
    show (count { baseUrl := sh.baseUrl,
                  collection := (addScan (removeScan (mapSet sh.collection hash { longUrl := strLower u, count := 0 + n, active := true }) (strLower u)).1
                    (strLower u)).1 }
      (sch ++ lit "//" ++ sh.baseUrl ++ lit "/" ++ hash)).1 = _
    rw [count_eq_aliasHit
      { baseUrl := sh.baseUrl,
        collection := (addScan (removeScan (mapSet sh.collection hash { longUrl := strLower u, count := 0 + n, active := true }) (strLower u)).1
          (strLower u)).1 }
      (sch ++ lit "//" ++ sh.baseUrl ++ lit "/" ++ hash) hash
      { longUrl := strLower u, count := 0 + n, active := true }
      hpsyn hporig (by rw [hpsplit]; rfl) hgetW]
    show ({ value := some (JsValue.num (0 + n)), error := none } : JsResult) = _
    rw [Nat.zero_add]

/-- Witness for C4 at `n = 2`: add, two queries, counts on both forms,
and a remove/re-add cycle, from the empty store. -/
theorem hitCount_persistence_witness :
    ∃ v : Str,
      (add ⟨lit "short.ly", []⟩ (lit "zz9") (lit "http://example.com/a")).1.value =
        some (JsValue.str v) ∧
      (∀ m : Nat, (query (iterQuery m v
        (add ⟨lit "short.ly", []⟩ (lit "zz9") (lit "http://example.com/a")).2) v).1.error = none) ∧
      (count (iterQuery 2 v
        (add ⟨lit "short.ly", []⟩ (lit "zz9") (lit "http://example.com/a")).2) v).1 =
        { value := some (JsValue.num 2), error := none } ∧
      (count (iterQuery 2 v
        (add ⟨lit "short.ly", []⟩ (lit "zz9") (lit "http://example.com/a")).2)
        (lit "http://example.com/a")).1 =
        { value := some (JsValue.num 2), error := none } ∧
      (count (add (remove (iterQuery 2 v
          (add ⟨lit "short.ly", []⟩ (lit "zz9") (lit "http://example.com/a")).2)
          (lit "http://example.com/a")).2 (lit "qq8") (lit "http://example.com/a")).2 v).1 =
        { value := some (JsValue.num 2), error := none } := by
  exact hitCount_persistence ⟨lit "short.ly", []⟩ (lit "http://example.com/a")
    (lit "zz9") (lit "qq8") 2 (wf_of _ (by decide)) (goodDomain_of _ (by decide))
    (goodToken_of _ (by decide)) (by decide) (by decide) (by decide) (by decide)

/-- Counterexample to C4 as stated: when `_generateHash()` returns the
empty string both at creation and at the re-`add` (for instance
`Math.random()` yielding `0` both times), the falsy `if (exists)` makes
the re-`add` overwrite the record stored under the empty alias with a
fresh one, resetting its hit count.  From the empty store with domain
`short.ly`: add `http://example.com/a` under the empty token, query the
returned short URL `http://short.ly/` once (`count` then returns `1`),
remove the long URL and add it again under the empty token — `count` on
the short URL now returns `0`, not `1`. -/
theorem hitCount_reset_on_empty_alias :
    GoodToken [] ∧
    (count (query (add (initShortener (lit "short.ly")) []
          (lit "http://example.com/a")).2 (lit "http://short.ly/")).2
      (lit "http://short.ly/")).1 =
      { value := some (JsValue.num 1), error := none } ∧
    (count (add (remove (query (add (initShortener (lit "short.ly")) []
              (lit "http://example.com/a")).2 (lit "http://short.ly/")).2
          (lit "http://example.com/a")).2 [] (lit "http://example.com/a")).2
      (lit "http://short.ly/")).1 =
      { value := some (JsValue.num 0), error := none } := by
  refine ⟨goodToken_of [] (by decide), by decide, by decide⟩

end UrlNode
